import Mathlib

/-!
# OMAP3 clock, interrupt and SDRAM register code; LLVM generic type expansion

A shallow embedding of

* `sys/arm/ti/omap3/omap3_prcm_clks.c` (clock activation, SYS_CLK / MPU_CLK
  decoding, GP timer source selection),
* `sys/arm/ti/omap3/omap3_intr.c` (INTCPS mask / unmask / next IRQ),
* `sys/arm/ti/omap3/omap35xx.c` (`omap_sdram_size`),
* `contrib/llvm/lib/CodeGen/SelectionDAG/LegalizeTypesGeneric.cpp`
  (`ExpandRes_NormalLoad`, `ExpandOp_NormalStore`, `ExpandOp_BUILD_VECTOR`,
  `ExpandRes_EXTRACT_VECTOR_ELT`),

followed by theorems about these definitions.

Machine integers are natural numbers reduced modulo `2 ^ 32` wherever the C
code computes in `uint32_t`, `unsigned int` or `unsigned long` (all 32 bits
wide on ARMv6).  Device registers are reached through an explicit bus state
that is threaded through every function.
-/

namespace Omap3

/-! ## 32-bit words -/

/-- Truncation of a natural number to a `uint32_t`. -/
def u32 (n : Nat) : Nat := n % 4294967296

/-- The C expression `1UL << n`, computed in 32-bit `unsigned long`. -/
def shl1 (n : Nat) : Nat := u32 (1 <<< n)

/-- The C expression `~x` on a 32-bit unsigned operand. -/
def not32 (x : Nat) : Nat := 4294967295 ^^^ u32 x

/-! ## The bus

`bus_read_4` / `bus_write_4` (and the `bus_space_*` variants) belong to the
kernel, not to the driver sources.  They are modelled as accesses to a register
file indexed by resource handle and byte offset.  A register normally behaves
as a store cell: a read returns the last value written.  To describe status
registers that the hardware changes on its own, each register carries a
(possibly empty) queue of values that the hardware presents on the next reads;
when the queue is empty the stored value is read.  Every access is appended to
a trace. -/

/-- A non-NULL `struct resource *`. -/
abbrev Resource := Nat

/-- One bus access. -/
inductive BusOp where
  | read (res : Resource) (off : Nat) (val : Nat)
  | write (res : Resource) (off : Nat) (val : Nat)
  deriving DecidableEq, Repr

/-- The state of the register file together with the access trace. -/
structure Bus where
  /-- the value last written to (or initially held by) each register -/
  regs : Resource → Nat → Nat
  /-- hardware-supplied values that the next reads of a register return -/
  script : Resource → Nat → List Nat
  /-- all accesses made so far, oldest first -/
  trace : List BusOp

/-- The bus behaves as a plain store: no register is driven by the hardware. -/
def Bus.isStore (s : Bus) : Prop := ∀ res off, s.script res off = []

/-- The value that the `k`-th next read of register `(res, off)` returns,
provided the accesses made in between are reads of that register or accesses
to other registers. -/
def Bus.peek (s : Bus) (res : Resource) (off : Nat) (k : Nat) : Nat :=
  u32 ((s.script res off).getD k (s.regs res off))

/-- The current 32-bit contents of register `(res, off)` seen as a store cell. -/
def Bus.cell (s : Bus) (res : Resource) (off : Nat) : Nat := u32 (s.regs res off)

/-- The writes recorded in a trace, oldest first. -/
def writesOf : List BusOp → List (Resource × Nat × Nat)
  | [] => []
  | BusOp.read _ _ _ :: t => writesOf t
  | BusOp.write res off v :: t => (res, off, v) :: writesOf t

/-- Model of `bus_read_4(res, off)`: returns the 32-bit value read and the new
bus state. -/
def bus_read_4 (res : Resource) (off : Nat) (s : Bus) : Nat × Bus :=
  match s.script res off with
  | [] =>
    (u32 (s.regs res off),
     { s with trace := s.trace ++ [BusOp.read res off (u32 (s.regs res off))] })
  | v :: rest =>
    (u32 v,
     { s with
       script := fun r o => if r = res ∧ o = off then rest else s.script r o
       trace := s.trace ++ [BusOp.read res off (u32 v)] })

/-- Model of `bus_write_4(res, off, val)`. -/
def bus_write_4 (res : Resource) (off : Nat) (val : Nat) (s : Bus) : Bus :=
  { s with
    regs := fun r o => if r = res ∧ o = off then u32 val else s.regs r o
    trace := s.trace ++ [BusOp.write res off (u32 val)] }

/-! ## Constants of absent kernel headers -/

/-- Value of `ENXIO` in `sys/errno.h` (a positive error code). -/
def ENXIO : Int := 6
/-- Value of `ENOMEM` in `sys/errno.h` (a positive error code). -/
def ENOMEM : Int := 12
/-- Value of `EINVAL` in `sys/errno.h` (a positive error code). -/
def EINVAL : Int := 22
/-- Value of `ETIMEDOUT` in `sys/errno.h` (a positive error code). -/
def ETIMEDOUT : Int := 60

/-- The numbering of the `clk_ident_t` and `clk_src_t` enumerators that
`omap3_prcm_clks.c` refers to.  The header declaring them (`omap_prcm.h`) is
not among the sources, so the numbering is a parameter of the model. -/
structure ClkEnum where
  UART1_CLK : Nat
  UART2_CLK : Nat
  UART3_CLK : Nat
  GPTIMER1_CLK : Nat
  GPTIMER2_CLK : Nat
  GPTIMER3_CLK : Nat
  GPTIMER4_CLK : Nat
  GPTIMER5_CLK : Nat
  GPTIMER6_CLK : Nat
  GPTIMER7_CLK : Nat
  GPTIMER8_CLK : Nat
  GPTIMER9_CLK : Nat
  GPTIMER10_CLK : Nat
  GPTIMER11_CLK : Nat
  MMC1_CLK : Nat
  MMC2_CLK : Nat
  MMC3_CLK : Nat
  USBTLL_CLK : Nat
  USBHSHOST_CLK : Nat
  GPIO1_CLK : Nat
  GPIO2_CLK : Nat
  GPIO3_CLK : Nat
  GPIO4_CLK : Nat
  GPIO5_CLK : Nat
  GPIO6_CLK : Nat
  I2C1_CLK : Nat
  I2C2_CLK : Nat
  I2C3_CLK : Nat
  INVALID_CLK_IDENT : Nat
  /-- enumerator of `clk_src_t` -/
  SYSCLK_CLK : Nat

/-- The part of `struct omap_clock_dev` that the callbacks read. -/
structure omap_clock_dev where
  id : Nat

/-! ## `omap3_prcm_clks.c` -/

def FREQ_96MHZ : Int := 96000000
def FREQ_64MHZ : Int := 64000000
def FREQ_48MHZ : Int := 48000000
def FREQ_32KHZ : Nat := 32000

def CM_INSTANCE_MEM_REGION : Nat := 0
def PRM_INSTANCE_MEM_REGION : Nat := 1

def MPU_CM_OFFSET : Nat := 0x0900
def CORE_CM_OFFSET : Nat := 0x0A00
def WKUP_CM_OFFSET : Nat := 0x0C00
def CLOCK_CTRL_CM_OFFSET : Nat := 0x0D00
def PER_CM_OFFSET : Nat := 0x1000
def USBHOST_CM_OFFSET : Nat := 0x1400

def CLOCK_CTRL_PRM_OFFSET : Nat := 0x0D00
def GLOBAL_PRM_OFFSET : Nat := 0x1200

/-- The C `struct omap3_clk_details`. -/
structure struct_omap3_clk_details where
  id : Nat
  src_freq : Int
  fclken_offset : Nat
  iclken_offset : Nat
  idlest_offset : Nat
  bit_offset : Nat
  deriving DecidableEq, Repr

/-- The initialiser macro `OMAP3_GENERIC_CLOCK_DETAILS`. -/
def OMAP3_GENERIC_CLOCK_DETAILS (d : Nat) (freq : Int) (base fclk iclk idlest bit : Nat) :
    struct_omap3_clk_details :=
  { id := d
    src_freq := freq
    fclken_offset := base + fclk
    iclken_offset := base + iclk
    idlest_offset := base + idlest
    bit_offset := bit }

/-- The table `g_omap3_clk_details`, terminating sentinel included. -/
def g_omap3_clk_details (K : ClkEnum) : List struct_omap3_clk_details :=
  [ OMAP3_GENERIC_CLOCK_DETAILS K.UART1_CLK FREQ_48MHZ CORE_CM_OFFSET 0x00 0x10 0x20 13,
    OMAP3_GENERIC_CLOCK_DETAILS K.UART2_CLK FREQ_48MHZ CORE_CM_OFFSET 0x00 0x10 0x20 14,
    OMAP3_GENERIC_CLOCK_DETAILS K.UART3_CLK FREQ_48MHZ PER_CM_OFFSET 0x00 0x10 0x20 11,
    OMAP3_GENERIC_CLOCK_DETAILS K.GPTIMER1_CLK (-1) WKUP_CM_OFFSET 0x00 0x10 0x20 3,
    OMAP3_GENERIC_CLOCK_DETAILS K.GPTIMER2_CLK (-1) PER_CM_OFFSET 0x00 0x10 0x20 3,
    OMAP3_GENERIC_CLOCK_DETAILS K.GPTIMER3_CLK (-1) PER_CM_OFFSET 0x00 0x10 0x20 4,
    OMAP3_GENERIC_CLOCK_DETAILS K.GPTIMER4_CLK (-1) PER_CM_OFFSET 0x00 0x10 0x20 5,
    OMAP3_GENERIC_CLOCK_DETAILS K.GPTIMER5_CLK (-1) PER_CM_OFFSET 0x00 0x10 0x20 6,
    OMAP3_GENERIC_CLOCK_DETAILS K.GPTIMER6_CLK (-1) PER_CM_OFFSET 0x00 0x10 0x20 7,
    OMAP3_GENERIC_CLOCK_DETAILS K.GPTIMER7_CLK (-1) PER_CM_OFFSET 0x00 0x10 0x20 8,
    OMAP3_GENERIC_CLOCK_DETAILS K.GPTIMER8_CLK (-1) PER_CM_OFFSET 0x00 0x10 0x20 9,
    OMAP3_GENERIC_CLOCK_DETAILS K.GPTIMER9_CLK (-1) PER_CM_OFFSET 0x00 0x10 0x20 10,
    OMAP3_GENERIC_CLOCK_DETAILS K.GPTIMER10_CLK (-1) CORE_CM_OFFSET 0x00 0x10 0x20 11,
    OMAP3_GENERIC_CLOCK_DETAILS K.GPTIMER11_CLK (-1) CORE_CM_OFFSET 0x00 0x10 0x20 12,
    OMAP3_GENERIC_CLOCK_DETAILS K.MMC1_CLK FREQ_96MHZ CORE_CM_OFFSET 0x00 0x10 0x20 24,
    OMAP3_GENERIC_CLOCK_DETAILS K.MMC2_CLK FREQ_96MHZ CORE_CM_OFFSET 0x00 0x10 0x20 25,
    OMAP3_GENERIC_CLOCK_DETAILS K.MMC3_CLK FREQ_96MHZ CORE_CM_OFFSET 0x00 0x10 0x20 30,
    OMAP3_GENERIC_CLOCK_DETAILS K.USBTLL_CLK (-1) CORE_CM_OFFSET 0x08 0x18 0x28 2,
    OMAP3_GENERIC_CLOCK_DETAILS K.USBHSHOST_CLK (-1) USBHOST_CM_OFFSET 0x00 0x10 0x20 1,
    OMAP3_GENERIC_CLOCK_DETAILS K.GPIO1_CLK (-1) WKUP_CM_OFFSET 0x00 0x10 0x20 3,
    OMAP3_GENERIC_CLOCK_DETAILS K.GPIO2_CLK (-1) PER_CM_OFFSET 0x00 0x10 0x20 13,
    OMAP3_GENERIC_CLOCK_DETAILS K.GPIO3_CLK (-1) PER_CM_OFFSET 0x00 0x10 0x20 14,
    OMAP3_GENERIC_CLOCK_DETAILS K.GPIO4_CLK (-1) PER_CM_OFFSET 0x00 0x10 0x20 15,
    OMAP3_GENERIC_CLOCK_DETAILS K.GPIO5_CLK (-1) PER_CM_OFFSET 0x00 0x10 0x20 16,
    OMAP3_GENERIC_CLOCK_DETAILS K.GPIO6_CLK (-1) PER_CM_OFFSET 0x00 0x10 0x20 17,
    OMAP3_GENERIC_CLOCK_DETAILS K.I2C1_CLK (-1) CORE_CM_OFFSET 0x00 0x10 0x20 15,
    OMAP3_GENERIC_CLOCK_DETAILS K.I2C2_CLK (-1) CORE_CM_OFFSET 0x00 0x10 0x20 16,
    OMAP3_GENERIC_CLOCK_DETAILS K.I2C3_CLK (-1) CORE_CM_OFFSET 0x00 0x10 0x20 17,
    { id := K.INVALID_CLK_IDENT, src_freq := 0, fclken_offset := 0, iclken_offset := 0,
      idlest_offset := 0, bit_offset := 0 } ]

def MAX_MODULE_ENABLE_WAIT : Nat := 1000

/-- The loop of `omap3_clk_wait_on_reg` with `n` iterations left. -/
def omap3_clk_wait_on_reg_loop (mem_res : Resource) (off mask cmp : Nat) :
    Nat → Bus → Int × Bus
  | 0, s => ( ETIMEDOUT, s)
  | n + 1, s =>
    let r := bus_read_4 mem_res off s
    if r.1 &&& mask = cmp then (0, r.2)
    else omap3_clk_wait_on_reg_loop mem_res off mask cmp n r.2

/-- The function `omap3_clk_wait_on_reg`: polls the register at most
`MAX_MODULE_ENABLE_WAIT` times. -/
def omap3_clk_wait_on_reg (mem_res : Resource) (off mask cmp : Nat) (s : Bus) : Int × Bus :=
  omap3_clk_wait_on_reg_loop mem_res off mask cmp MAX_MODULE_ENABLE_WAIT s

/-- The walk of `omap3_clk_details` over the table: stops at the sentinel
(`walker->id != INVALID_CLK_IDENT`), returns the first entry whose id matches. -/
def omap3_clk_details_walk (K : ClkEnum) (id : Nat) :
    List struct_omap3_clk_details → Option struct_omap3_clk_details
  | [] => none
  | walker :: rest =>
    if walker.id = K.INVALID_CLK_IDENT then none
    else if id = walker.id then some walker
    else omap3_clk_details_walk K id rest

/-- The function `omap3_clk_details`; `none` stands for `NULL`. -/
def omap3_clk_details (K : ClkEnum) (id : Nat) : Option struct_omap3_clk_details :=
  omap3_clk_details_walk K id (g_omap3_clk_details K)

/-- The function `omap3_clk_generic_activate`.  `mem_res i = none` stands for a
NULL entry of the `mem_res[]` array.  The `printf` on timeout is console
output and is not modelled. -/
def omap3_clk_generic_activate (K : ClkEnum) (clkdev : omap_clock_dev)
    (mem_res : Nat → Option Resource) (s : Bus) : Int × Bus :=
  match omap3_clk_details K clkdev.id with
  | none => ( ENXIO, s)
  | some clk_details =>
    match mem_res CM_INSTANCE_MEM_REGION with
    | none => ( ENOMEM, s)
    | some clk_mem_res =>
      -- Enable the interface clock
      let r1 := bus_read_4 clk_mem_res clk_details.iclken_offset s
      let iclken := r1.1 ||| shl1 clk_details.bit_offset
      let s2 := bus_write_4 clk_mem_res clk_details.iclken_offset iclken r1.2
      -- Read back the value
      let r3 := bus_read_4 clk_mem_res clk_details.iclken_offset s2
      -- Enable the functional clock
      let r4 := bus_read_4 clk_mem_res clk_details.fclken_offset r3.2
      let fclken := r4.1 ||| shl1 clk_details.bit_offset
      let s5 := bus_write_4 clk_mem_res clk_details.fclken_offset fclken r4.2
      -- Read back the value
      let r6 := bus_read_4 clk_mem_res clk_details.fclken_offset s5
      -- Poll the IDLEST register
      let w := omap3_clk_wait_on_reg clk_mem_res clk_details.idlest_offset
                 (shl1 clk_details.bit_offset) 0 r6.2
      if w.1 ≠ 0 then ( ETIMEDOUT, w.2) else (0, w.2)

/-- The function `omap3_clk_generic_deactivate`. -/
def omap3_clk_generic_deactivate (K : ClkEnum) (clkdev : omap_clock_dev)
    (mem_res : Nat → Option Resource) (s : Bus) : Int × Bus :=
  match omap3_clk_details K clkdev.id with
  | none => ( ENXIO, s)
  | some clk_details =>
    match mem_res CM_INSTANCE_MEM_REGION with
    | none => ( ENOMEM, s)
    | some clk_mem_res =>
      -- Disable the interface clock
      let r1 := bus_read_4 clk_mem_res clk_details.iclken_offset s
      let iclken := r1.1 &&& not32 (shl1 clk_details.bit_offset)
      let s2 := bus_write_4 clk_mem_res clk_details.iclken_offset iclken r1.2
      -- Disable the functional clock
      let r3 := bus_read_4 clk_mem_res clk_details.fclken_offset s2
      let fclken := r3.1 &&& not32 (shl1 clk_details.bit_offset)
      let s4 := bus_write_4 clk_mem_res clk_details.fclken_offset fclken r3.2
      (0, s4)

/-- Ways in which a call can fail to return: the kernel `panic`, an access
through a NULL resource pointer, a division by zero. -/
inductive Trap where
  | panic (msg : String)
  | null_resource
  | division_by_zero
  deriving DecidableEq, Repr

/-- The function `omap3_clk_get_sysclk_freq`.  `freq = none` stands for a NULL
pointer and `freq = some v` for a pointer to a cell holding `v`; the second
component of the result is that cell after the call.  `clkdev` is not used by
the C function. -/
def omap3_clk_get_sysclk_freq (_clkdev : Option omap_clock_dev) (freq : Option Nat)
    (mem_res : Nat → Option Resource) (s : Bus) : Except Trap (Int × Option Nat × Bus) :=
  match mem_res PRM_INSTANCE_MEM_REGION with
  | none => Except.error Trap.null_resource
  | some prm =>
    -- Read the input clock freq from the configuration register
    let r1 := bus_read_4 prm (CLOCK_CTRL_PRM_OFFSET + 0x40) s
    let clknsel := r1.1
    let oscclk? : Option Nat :=
      match clknsel &&& 0x7 with
      | 0x0 => some 12000000
      | 0x1 => some 13000000
      | 0x2 => some 19200000
      | 0x3 => some 26000000
      | 0x4 => some 38400000
      | 0x5 => some 16800000
      | _ => none
    match oscclk? with
    | none => Except.error (Trap.panic "omap3_clk_get_sysclk_freq: Invalid clock freq")
    | some oscclk =>
      -- Read the value of the clock divider used for the system clock
      let r2 := bus_read_4 prm (GLOBAL_PRM_OFFSET + 0x70) r1.2
      let clksel := r2.1
      let sysclk? : Option Nat :=
        match clksel &&& 0xC0 with
        | 0x40 => some oscclk
        | 0x80 => some (oscclk / 2)
        | _ => none
      match sysclk? with
      | none =>
        Except.error (Trap.panic "omap3_clk_get_sysclk_freq: Invalid system clock divider")
      | some sysclk =>
        -- Return the value
        Except.ok (0, freq.map (fun _ => sysclk), r2.2)

/-- The function `omap3_clk_get_arm_fclk_freq`.  `sysclk`, `coreclk`, `mpuclk`
and `clkout` are 32-bit unsigned, so every product is reduced modulo `2 ^ 32`.
The local `sysclk` is passed by address to `omap3_clk_get_sysclk_freq`. -/
def omap3_clk_get_arm_fclk_freq (clkdev : Option omap_clock_dev) (freq : Option Nat)
    (mem_res : Nat → Option Resource) (s : Bus) : Except Trap (Int × Option Nat × Bus) :=
  -- Get the SYSCLK freq
  match omap3_clk_get_sysclk_freq clkdev (some 0) mem_res s with
  | Except.error e => Except.error e
  | Except.ok (_, sysclk?, s1) =>
    let sysclk := sysclk?.getD 0
    match mem_res CM_INSTANCE_MEM_REGION with
    | none => Except.error Trap.null_resource
    | some cm =>
      -- First get the freq of the CORE_CLK (feed from DPLL3)
      let r1 := bus_read_4 cm (CLOCK_CTRL_CM_OFFSET + 0x40) s1
      let clksel := r1.1
      let clkout := u32 (sysclk * ((clksel >>> 16) &&& 0x7FF)) / (((clksel >>> 8) &&& 0x7F) + 1)
      if clksel >>> 27 = 0 then Except.error Trap.division_by_zero
      else
        let coreclk := clkout / (clksel >>> 27)
        -- Next get the freq for the MPU_CLK
        let r2 := bus_read_4 cm (MPU_CM_OFFSET + 0x40) r1.2
        let clksel := r2.1
        let mpuclk := u32 (coreclk * ((clksel >>> 8) &&& 0x7FF)) / ((clksel &&& 0x7F) + 1)
        -- Return the value
        Except.ok (0, freq.map (fun _ => mpuclk), r2.2)

/-- The `switch (clkdev->id)` statement that `omap3_clk_gptimer_set_source` and
`omap3_clk_gptimer_get_source_freq` both contain: the pair `(bit, regoff)`, or
`none` for the `default:` case (which returns EINVAL).  `bit` is a
`uint32_t`. -/
def gptimer_clksel_switch (K : ClkEnum) (id : Nat) : Option (Nat × Nat) :=
  if id = K.GPTIMER1_CLK then
    some (0, WKUP_CM_OFFSET + 0x40)
  else if K.GPTIMER2_CLK ≤ id ∧ id ≤ K.GPTIMER9_CLK then
    some (u32 (id - K.GPTIMER2_CLK), PER_CM_OFFSET + 0x40)
  else if K.GPTIMER10_CLK ≤ id ∧ id ≤ K.GPTIMER11_CLK then
    some (u32 (6 + (id - K.GPTIMER10_CLK)), CORE_CM_OFFSET + 0x40)
  else none

/-- The function `omap3_clk_gptimer_set_source`. -/
def omap3_clk_gptimer_set_source (K : ClkEnum) (clkdev : omap_clock_dev) (clksrc : Nat)
    (mem_res : Nat → Option Resource) (s : Bus) : Int × Bus :=
  match omap3_clk_details K clkdev.id with
  | none => ( ENXIO, s)
  | some _ =>
    match mem_res CM_INSTANCE_MEM_REGION with
    | none => ( ENOMEM, s)
    | some clk_mem_res =>
      -- Set the source freq by writing the clksel register
      match gptimer_clksel_switch K clkdev.id with
      | none => ( EINVAL, s)
      | some (bit, regoff) =>
        -- Set the CLKSEL bit if then the SYS_CLK is the source
        let r1 := bus_read_4 clk_mem_res regoff s
        let clksel :=
          if clksrc = K.SYSCLK_CLK then r1.1 ||| shl1 bit
          else r1.1 &&& not32 (shl1 bit)
        let s2 := bus_write_4 clk_mem_res regoff clksel r1.2
        -- Read back the value
        let r3 := bus_read_4 clk_mem_res regoff s2
        (0, r3.2)

/-- The function `omap3_clk_gptimer_get_source_freq`; `freq` as in
`omap3_clk_get_sysclk_freq`. -/
def omap3_clk_gptimer_get_source_freq (K : ClkEnum) (clkdev : omap_clock_dev)
    (freq : Option Nat) (mem_res : Nat → Option Resource) (s : Bus) :
    Except Trap (Int × Option Nat × Bus) :=
  match omap3_clk_details K clkdev.id with
  | none => Except.ok ( ENXIO, freq, s)
  | some _ =>
    match mem_res CM_INSTANCE_MEM_REGION with
    | none => Except.ok ( ENOMEM, freq, s)
    | some clk_mem_res =>
      -- Determine the source freq by reading the clksel register
      match gptimer_clksel_switch K clkdev.id with
      | none => Except.ok ( EINVAL, freq, s)
      | some (bit, regoff) =>
        -- If the CLKSEL bit is set then the SYS_CLK is the source
        let r1 := bus_read_4 clk_mem_res regoff s
        let clksel := r1.1
        if clksel &&& shl1 bit ≠ 0 then
          match omap3_clk_get_sysclk_freq none (some 0) mem_res r1.2 with
          | Except.error e => Except.error e
          | Except.ok (_, src_freq, s2) =>
            Except.ok (0, freq.map (fun _ => src_freq.getD 0), s2)
        else
          Except.ok (0, freq.map (fun _ => FREQ_32KHZ), r1.2)

/-- The timer clock ids `GPTIMER1_CLK` .. `GPTIMER11_CLK`. -/
def ClkEnum.gptimers (K : ClkEnum) : List Nat :=
  [K.GPTIMER1_CLK, K.GPTIMER2_CLK, K.GPTIMER3_CLK, K.GPTIMER4_CLK, K.GPTIMER5_CLK,
   K.GPTIMER6_CLK, K.GPTIMER7_CLK, K.GPTIMER8_CLK, K.GPTIMER9_CLK, K.GPTIMER10_CLK,
   K.GPTIMER11_CLK]

/-- What is assumed of the absent enum declaration where the timer clocks are
concerned: the eleven timer enumerators are numbered consecutively (which the
case ranges `GPTIMER2_CLK ... GPTIMER9_CLK` and `GPTIMER10_CLK ...
GPTIMER11_CLK` rely on), and `INVALID_CLK_IDENT` is none of them nor one of the
UART ids that precede them in the table. -/
def ClkEnum.timersInSequence (K : ClkEnum) : Prop :=
  K.GPTIMER2_CLK = K.GPTIMER1_CLK + 1 ∧ K.GPTIMER3_CLK = K.GPTIMER1_CLK + 2 ∧
  K.GPTIMER4_CLK = K.GPTIMER1_CLK + 3 ∧ K.GPTIMER5_CLK = K.GPTIMER1_CLK + 4 ∧
  K.GPTIMER6_CLK = K.GPTIMER1_CLK + 5 ∧ K.GPTIMER7_CLK = K.GPTIMER1_CLK + 6 ∧
  K.GPTIMER8_CLK = K.GPTIMER1_CLK + 7 ∧ K.GPTIMER9_CLK = K.GPTIMER1_CLK + 8 ∧
  K.GPTIMER10_CLK = K.GPTIMER1_CLK + 9 ∧ K.GPTIMER11_CLK = K.GPTIMER1_CLK + 10 ∧
  (K.INVALID_CLK_IDENT < K.GPTIMER1_CLK ∨ K.GPTIMER1_CLK + 10 < K.INVALID_CLK_IDENT) ∧
  K.UART1_CLK ≠ K.INVALID_CLK_IDENT ∧ K.UART2_CLK ≠ K.INVALID_CLK_IDENT ∧
  K.UART3_CLK ≠ K.INVALID_CLK_IDENT

instance (K : ClkEnum) : Decidable K.timersInSequence := by
  unfold ClkEnum.timersInSequence; infer_instance

/-! ### The decoding tables as the specification words them -/

/-- Oscillator frequency selected by the low three bits of PRM_CLKSEL, for the
values 0..5. -/
def spec_osc : Nat → Nat
  | 0 => 12000000
  | 1 => 13000000
  | 2 => 19200000
  | 3 => 26000000
  | 4 => 38400000
  | 5 => 16800000
  | _ => 0

/-- System clock divider selected by bits 7:6 of the clock-source-control
register: 1 for 0x40, 2 for 0x80. -/
def spec_div : Nat → Nat
  | 0x40 => 1
  | 0x80 => 2
  | _ => 0

/-- The MPU clock frequency over unbounded integers, from the SYS_CLK
frequency `sclk` and the two divider registers `r3` (DPLL3) and `r1` (DPLL1):
`floor(floor(floor(sclk*M/(N+1))/M2) * Mm/(Nm+1))`. -/
def spec_mpuclk (sclk r3 r1 : Nat) : Nat :=
  (sclk * ((r3 >>> 16) &&& 0x7FF) / (((r3 >>> 8) &&& 0x7F) + 1) / (r3 >>> 27))
    * ((r1 >>> 8) &&& 0x7FF) / ((r1 &&& 0x7F) + 1)

/-- The part of an outcome that a caller observes: the return value and the
`freq` cell, or the trap. -/
def observe (r : Except Trap (Int × Option Nat × Bus)) : Except Trap (Int × Option Nat) :=
  match r with
  | Except.error e => Except.error e
  | Except.ok (ret, f, _) => Except.ok (ret, f)

/-- A bus that behaves as a store with given contents of two PRM registers
(resource 1: PRM_CLKSEL at 0xD40, PRM_CLKSRC_CTRL at 0x1270) and of two CM
registers (resource 0: CM_CLKSEL1_PLL at 0xD40, CM_CLKSEL1_PLL_MPU at 0x940). -/
def clockBus (prm_clksel prm_clksrc cm_pll cm_pll_mpu : Nat) : Bus :=
  { regs := fun r o =>
      if r = 1 ∧ o = 0xD40 then prm_clksel
      else if r = 1 ∧ o = 0x1270 then prm_clksrc
      else if r = 0 ∧ o = 0xD40 then cm_pll
      else if r = 0 ∧ o = 0x940 then cm_pll_mpu
      else 0
    script := fun _ _ => []
    trace := [] }

/-! ## `omap3_intr.c` -/

/-- The fields of `struct omap3_softc` (from `omap3var.h`) that the interrupt
code uses. -/
structure omap3_softc where
  sc_iotag : Nat
  sc_intcps_ioh : Resource

/-- Model of `bus_space_write_4(tag, handle, off, val)`: a write to the register
file behind `handle`. -/
def bus_space_write_4 (_tag : Nat) (handle : Resource) (off val : Nat) (s : Bus) : Bus :=
  bus_write_4 handle off val s

/-- Model of `bus_space_read_4(tag, handle, off)`. -/
def bus_space_read_4 (_tag : Nat) (handle : Resource) (off : Nat) (s : Bus) : Nat × Bus :=
  bus_read_4 handle off s

/-- Conversion of a C `int` to `uint32_t` (two's complement). -/
def toU32 (i : Int) : Nat := (i % 4294967296).toNat

def INTCPS_SIR_IRQ : Nat := 0x40
def INTCPS_CONTROL : Nat := 0x48
def INTCPS_MIR_CLEAR (n : Nat) : Nat := 0x88 + 0x20 * n
def INTCPS_MIR_SET (n : Nat) : Nat := 0x8C + 0x20 * n
/-- The macro `INTCPS_ISR_CLEAR`, here applied to an `int` argument. -/
def INTCPS_ISR_CLEAR (n : Int) : Int := 0x94 + 0x20 * n

/-- The function `arm_mask_irq`; `g_omap3_softc` is passed as `sc`, `nb` is a
32-bit `uintptr_t`. -/
def arm_mask_irq (sc : omap3_softc) (nb : Nat) (s : Bus) : Bus :=
  bus_space_write_4 sc.sc_iotag sc.sc_intcps_ioh
    (u32 (INTCPS_MIR_SET (nb >>> 5))) (shl1 (nb &&& 0x1F)) s

/-- The function `arm_unmask_irq`. -/
def arm_unmask_irq (sc : omap3_softc) (nb : Nat) (s : Bus) : Bus :=
  bus_space_write_4 sc.sc_iotag sc.sc_intcps_ioh
    (u32 (INTCPS_MIR_CLEAR (nb >>> 5))) (shl1 (nb &&& 0x1F)) s

/-- The function `arm_get_next_irq`.  `last_irq` is an `int`; it is converted
to `uint32_t` for the comparison with `active_irq`.  The `device_printf` on a
spurious interrupt is console output and is not modelled. -/
def arm_get_next_irq (sc : omap3_softc) (last_irq : Int) (s : Bus) : Int × Bus :=
  -- clean-up the last IRQ
  let s1 :=
    if last_irq ≠ -1 then
      -- clear the interrupt status flag
      let sa := bus_space_write_4 sc.sc_iotag sc.sc_intcps_ioh
        (toU32 (INTCPS_ISR_CLEAR (last_irq >>> (5 : Nat)))) (shl1 (toU32 last_irq &&& 0x1F)) s
      -- tell the interrupt logic we've dealt with the interrupt
      bus_space_write_4 sc.sc_iotag sc.sc_intcps_ioh INTCPS_CONTROL 1 sa
    else s
  -- Get the next active interrupt
  let r := bus_space_read_4 sc.sc_iotag sc.sc_intcps_ioh INTCPS_SIR_IRQ s1
  let active_irq := r.1
  -- Check for spurious interrupt
  if active_irq &&& 0xffffff80 = 0xffffff80 then (-1, r.2)
  else
    -- Just get the active IRQ part
    let active_irq := active_irq &&& 0x7F
    -- Return the new IRQ if it is different from the previous
    if active_irq ≠ toU32 last_irq then ((active_irq : Int), r.2)
    else (-1, r.2)

/-! ## `omap35xx.c` -/

/-- The function `omap_sdram_size`.  The macro `OMAP35XX_SDRC_MCFG` (from the
absent `omap35xx_reg.h`) giving the addresses of the two registers is a
parameter, and `mem` gives the word found at an address.  `size` is a
`uint32_t`.  The `printf` is console output and is not modelled. -/
def omap_sdram_size (OMAP35XX_SDRC_MCFG : Nat → Nat) (mem : Nat → Nat) : Nat :=
  let sdrc_mcfg_0 := u32 (mem (OMAP35XX_SDRC_MCFG 0))
  let sdrc_mcfg_1 := u32 (mem (OMAP35XX_SDRC_MCFG 1))
  -- The size is given in bits 17:8 in 2MB chunk sizes
  let size := u32 (((sdrc_mcfg_0 >>> 8) &&& 0x3FF) * (2 * 1024 * 1024))
  let size := u32 (size + u32 (((sdrc_mcfg_1 >>> 8) &&& 0x3FF) * (2 * 1024 * 1024)))
  size

/-! ## Sample data -/

/-- Sample addresses of the two SDRC_MCFG registers. -/
def sampleMcfg : Nat → Nat := fun p => 0x6D000080 + 0x30 * p

/-- A sample memory: SDRC_MCFG(0) describes 128 chunks (256 MiB), SDRC_MCFG(1)
is zero. -/
def sampleMem : Nat → Nat := fun a => if a = 0x6D000080 then 0x8000 else 0

/-- A sample soft context: the INTCPS registers are behind resource 7. -/
def sampleSoftc : omap3_softc := { sc_iotag := 0, sc_intcps_ioh := 7 }


/-- A sample numbering of the enumerators (distinct values, timers in sequence). -/
def sampleEnum : ClkEnum :=
  { UART1_CLK := 400, UART2_CLK := 401, UART3_CLK := 402,
    GPTIMER1_CLK := 500, GPTIMER2_CLK := 501, GPTIMER3_CLK := 502, GPTIMER4_CLK := 503,
    GPTIMER5_CLK := 504, GPTIMER6_CLK := 505, GPTIMER7_CLK := 506, GPTIMER8_CLK := 507,
    GPTIMER9_CLK := 508, GPTIMER10_CLK := 509, GPTIMER11_CLK := 510,
    MMC1_CLK := 100, MMC2_CLK := 101, MMC3_CLK := 102,
    USBTLL_CLK := 300, USBHSHOST_CLK := 301,
    GPIO1_CLK := 700, GPIO2_CLK := 701, GPIO3_CLK := 702, GPIO4_CLK := 703,
    GPIO5_CLK := 704, GPIO6_CLK := 705,
    I2C1_CLK := 200, I2C2_CLK := 201, I2C3_CLK := 202,
    INVALID_CLK_IDENT := 801,
    SYSCLK_CLK := 0 }

/-- A bus whose registers all hold zero and behave as a store. -/
def zeroBus : Bus := { regs := fun _ _ => 0, script := fun _ _ => [], trace := [] }

/-- A `mem_res[]` array whose entries are all mapped: entry `i` is resource `i`. -/
def allMapped : Nat → Option Resource := fun i => some i

/-- A `mem_res[]` array whose entries are all NULL. -/
def noneMapped : Nat → Option Resource := fun _ => none

/-- The table entry of `UART1_CLK` under the sample numbering. -/
def uart1Details : struct_omap3_clk_details :=
  { id := 400, src_freq := 48000000, fclken_offset := 0xA00, iclken_offset := 0xA10,
    idlest_offset := 0xA20, bit_offset := 13 }

end Omap3

/-! ## `LegalizeTypesGeneric.cpp`

The SelectionDAG classes (`SDValue`, `EVT`, `SelectionDAG`, `TargetLowering`,
`MachinePointerInfo`) are not part of the sources.  Nodes are modelled as
terms: `DAG.getNode`, `DAG.getLoad` and `DAG.getStore` build a term from their
arguments (structurally equal terms are the same node, as with the DAG's node
uniquing); debug locations are dropped. -/

namespace llvm

/-- Value types, as far as the generic expansion looks at them: the chain type
`MVT::Other`, a scalar of a given width, or a vector. -/
inductive EVT where
  | Other
  | scalar (bits : Nat)
  | vector (eltBits : Nat) (numElts : Nat)
  deriving DecidableEq, Repr

/-- `EVT::getSizeInBits`. -/
def EVT.getSizeInBits : EVT → Nat
  | EVT.Other => 0
  | EVT.scalar bits => bits
  | EVT.vector eltBits numElts => eltBits * numElts

/-- `EVT::isByteSized`: the size in bits is a multiple of 8. -/
def EVT.isByteSized (vt : EVT) : Bool := vt.getSizeInBits % 8 == 0

/-- `MachinePointerInfo`, with `getWithOffset` kept as an uninterpreted
constructor. -/
inductive MachinePointerInfo where
  | info (id : Nat)
  | getWithOffset (base : MachinePointerInfo) (O : Nat)
  deriving DecidableEq, Repr

/-- Node opcodes used by the routines modelled here. -/
inductive ISD where
  | ADD
  | TokenFactor
  | BITCAST
  | BUILD_VECTOR
  | EXTRACT_VECTOR_ELT
  | ZERO_EXTEND
  deriving DecidableEq, Repr

/-- `ISD::LoadExtType`. -/
inductive LoadExtType where
  | NON_EXTLOAD
  | EXTLOAD
  | SEXTLOAD
  | ZEXTLOAD
  deriving DecidableEq, Repr

/-- `ISD::MemIndexedMode`. -/
inductive MemIndexedMode where
  | UNINDEXED
  | PRE_INC
  | PRE_DEC
  | POST_INC
  | POST_DEC
  deriving DecidableEq, Repr

/-- An `SDValue`: a result of a node.  `value` is a result of a node that
exists before the routine runs; `load` and `store` are the non-extending,
unindexed memory nodes that `DAG.getLoad` / `DAG.getStore` create (a load has
result 0, the value, and result 1, the chain); `node` is `DAG.getNode`. -/
inductive SDValue where
  | value (id : Nat) (resNo : Nat) (vt : EVT)
  | constant (val : Nat) (vt : EVT)
  | node (opc : ISD) (vt : EVT) (ops : List SDValue)
  | load (vt : EVT) (chain ptr : SDValue) (ptrInfo : MachinePointerInfo)
      (isVolatile isNonTemporal isInvariant : Bool) (alignment : Nat) (resNo : Nat)
  | store (chain val ptr : SDValue) (ptrInfo : MachinePointerInfo)
      (isVolatile isNonTemporal : Bool) (alignment : Nat)

/-- `SDValue::getValueType`. -/
def SDValue.getValueType : SDValue → EVT
  | SDValue.value _ _ vt => vt
  | SDValue.constant _ vt => vt
  | SDValue.node _ vt _ => vt
  | SDValue.load vt _ _ _ _ _ _ _ resNo => if resNo = 0 then vt else EVT.Other
  | SDValue.store _ _ _ _ _ _ _ => EVT.Other

/-- `SDValue::getValue(R)`: result `R` of the same node. -/
def SDValue.getValue : SDValue → Nat → SDValue
  | SDValue.value id _ vt, R => SDValue.value id R vt
  | SDValue.load vt chain ptr ptrInfo v nt inv al _, R =>
    SDValue.load vt chain ptr ptrInfo v nt inv al R
  | x, _ => x

/-- The queries of `TargetLowering` that the routines make. -/
structure TargetLowering where
  isBigEndian : Bool
  getTypeToTransformTo : EVT → EVT
  getPointerTy : EVT

/-- A `LoadSDNode` as the routine sees it through its accessors. -/
structure LoadSDNode where
  valueType : EVT
  chain : SDValue
  basePtr : SDValue
  pointerInfo : MachinePointerInfo
  alignment : Nat
  isVolatile : Bool
  isNonTemporal : Bool
  isInvariant : Bool
  extensionType : LoadExtType
  addressingMode : MemIndexedMode

/-- `SDValue(N, R)` for a load node `N`. -/
def LoadSDNode.result (N : LoadSDNode) (R : Nat) : SDValue :=
  SDValue.load N.valueType N.chain N.basePtr N.pointerInfo N.isVolatile N.isNonTemporal
    N.isInvariant N.alignment R

/-- `ISD::isNormalLoad`: a non-extending, unindexed load. -/
def ISD.isNormalLoad (N : LoadSDNode) : Bool :=
  N.extensionType == LoadExtType.NON_EXTLOAD && N.addressingMode == MemIndexedMode.UNINDEXED

/-- The legalizer: the target and the value replacements recorded so far.
`MinAlign` (from the absent `MathExtras.h`) is kept as a parameter. -/
structure DAGTypeLegalizer where
  TLI : TargetLowering
  MinAlign : Nat → Nat → Nat
  ReplacedValues : List (SDValue × SDValue)

/-- `DAGTypeLegalizer::ReplaceValueWith` (defined in the absent
`LegalizeTypes.cpp`), modelled as recording that `From` is replaced by `To`. -/
def DAGTypeLegalizer.ReplaceValueWith (self : DAGTypeLegalizer) (From To : SDValue) :
    DAGTypeLegalizer :=
  { self with ReplacedValues := self.ReplacedValues ++ [(From, To)] }

/-- `DAG.getIntPtrConstant`: a constant of the pointer type. -/
def DAGTypeLegalizer.getIntPtrConstant (self : DAGTypeLegalizer) (val : Nat) : SDValue :=
  SDValue.constant val self.TLI.getPointerTy

/-- `DAGTypeLegalizer::ExpandRes_NormalLoad`.  The result is `none` when one of
the two assertions fails, otherwise `(Lo, Hi)` and the legalizer after the
call. -/
def DAGTypeLegalizer.ExpandRes_NormalLoad (self : DAGTypeLegalizer) (N : LoadSDNode) :
    Option (SDValue × SDValue × DAGTypeLegalizer) :=
  if ¬ ISD.isNormalLoad N then none
  else
    let LD := N
    let NVT := self.TLI.getTypeToTransformTo LD.valueType
    let Chain := LD.chain
    let Ptr := LD.basePtr
    let Alignment := LD.alignment
    let isVolatile := LD.isVolatile
    let isNonTemporal := LD.isNonTemporal
    let isInvariant := LD.isInvariant
    if ¬ NVT.isByteSized then none
    else
      let Lo := SDValue.load NVT Chain Ptr LD.pointerInfo isVolatile isNonTemporal isInvariant
        Alignment 0
      -- Increment the pointer to the other half.
      let IncrementSize := NVT.getSizeInBits / 8
      let Ptr := SDValue.node ISD.ADD Ptr.getValueType
        [Ptr, self.getIntPtrConstant IncrementSize]
      let Hi := SDValue.load NVT Chain Ptr
        (MachinePointerInfo.getWithOffset LD.pointerInfo IncrementSize)
        isVolatile isNonTemporal isInvariant (self.MinAlign Alignment IncrementSize) 0
      -- Build a factor node to remember that this load is independent of the other one.
      let Chain := SDValue.node ISD.TokenFactor EVT.Other [Lo.getValue 1, Hi.getValue 1]
      -- Handle endianness of the load.
      let LoHi := if self.TLI.isBigEndian then (Hi, Lo) else (Lo, Hi)
      -- Modified the chain - switch anything that used the old chain to use the new one.
      some (LoHi.1, LoHi.2, self.ReplaceValueWith (N.result 1) Chain)

/-! ### Observers of load nodes -/

/-- The memory access a load value performs: type loaded, chain, address,
volatile / non-temporal / invariant flags.  `none` for a value that is not a
load. -/
def SDValue.loadAccess : SDValue → Option (EVT × SDValue × SDValue × Bool × Bool × Bool)
  | SDValue.load vt chain ptr _ v nt inv _ _ => some (vt, chain, ptr, v, nt, inv)
  | _ => none

/-- The address `Ptr + S`: an `ADD` node of `Ptr` and the pointer-sized
constant `S`. -/
def ptrPlus (TLI : TargetLowering) (Ptr : SDValue) (S : Nat) : SDValue :=
  SDValue.node ISD.ADD Ptr.getValueType [Ptr, SDValue.constant S TLI.getPointerTy]

/-! ### Sample data -/

/-- A 32-bit target that expands `i64` into two `i32`. -/
def sampleTLI (bigEndian : Bool) : TargetLowering :=
  { isBigEndian := bigEndian
    getTypeToTransformTo := fun vt =>
      match vt with
      | EVT.scalar 64 => EVT.scalar 32
      | other => other
    getPointerTy := EVT.scalar 32 }

/-- A legalizer for the sample target with nothing replaced yet. -/
def sampleLegalizer (bigEndian : Bool) : DAGTypeLegalizer :=
  { TLI := sampleTLI bigEndian, MinAlign := fun a b => Nat.gcd a b, ReplacedValues := [] }

/-- A normal, non-volatile `i64` load from the address that is result 0 of
node 2, chained to the entry token (result 0 of node 1). -/
def sampleLoad : LoadSDNode :=
  { valueType := EVT.scalar 64
    chain := SDValue.value 1 0 EVT.Other
    basePtr := SDValue.value 2 0 (EVT.scalar 32)
    pointerInfo := MachinePointerInfo.info 0
    alignment := 8
    isVolatile := false
    isNonTemporal := false
    isInvariant := false
    extensionType := LoadExtType.NON_EXTLOAD
    addressingMode := MemIndexedMode.UNINDEXED }

/-- The low half of the sample load on a little-endian target: an `i32` load
from the original address. -/
def sampleLo : SDValue :=
  SDValue.load (EVT.scalar 32) (SDValue.value 1 0 EVT.Other) (SDValue.value 2 0 (EVT.scalar 32))
    (MachinePointerInfo.info 0) false false false 8 0

/-- The high half of the sample load on a little-endian target: an `i32` load
from the original address plus 4. -/
def sampleHi : SDValue :=
  SDValue.load (EVT.scalar 32) (SDValue.value 1 0 EVT.Other)
    (SDValue.node ISD.ADD (EVT.scalar 32)
      [SDValue.value 2 0 (EVT.scalar 32), SDValue.constant 4 (EVT.scalar 32)])
    (MachinePointerInfo.getWithOffset (MachinePointerInfo.info 0) 4) false false false 4 0


/-! ### Operand expansion and vector routines -/

/-- `EVT::getVectorVT`: the vector of `numElts` elements of a scalar type. -/
def EVT.getVectorVT : EVT → Nat → EVT
  | EVT.scalar bits, numElts => EVT.vector bits numElts
  | _, _ => EVT.Other

/-- `EVT::getVectorNumElements`. -/
def EVT.getVectorNumElements : EVT → Nat
  | EVT.vector _ numElts => numElts
  | _ => 0

/-- `EVT::getVectorElementType`. -/
def EVT.getVectorElementType : EVT → EVT
  | EVT.vector eltBits _ => EVT.scalar eltBits
  | _ => EVT.Other

/-- `EVT::bitsLT`: strictly fewer bits. -/
def EVT.bitsLT (a b : EVT) : Bool := decide (a.getSizeInBits < b.getSizeInBits)

/-- An `SDNode` as the routines see it: the type of result 0 and the operands. -/
structure SDNode where
  valueType : EVT
  operands : List SDValue

/-- `SDNode::getOperand`; `none` when the index is out of range. -/
def SDNode.getOperand (N : SDNode) (i : Nat) : Option SDValue := N.operands[i]?

/-- A `StoreSDNode` as the routine sees it through its accessors. -/
structure StoreSDNode where
  value : SDValue
  chain : SDValue
  basePtr : SDValue
  pointerInfo : MachinePointerInfo
  alignment : Nat
  isVolatile : Bool
  isNonTemporal : Bool
  isTruncatingStore : Bool
  addressingMode : MemIndexedMode

/-- `ISD::isNormalStore`: a non-truncating, unindexed store. -/
def ISD.isNormalStore (N : StoreSDNode) : Bool :=
  !N.isTruncatingStore && N.addressingMode == MemIndexedMode.UNINDEXED

/-- What the routines ask of the rest of the legalizer (the absent
`LegalizeTypes.cpp`): `GetExpandedOp`, giving the `(Lo, Hi)` pair recorded for
an operand whose type is expanded, and `isTypeLegal`. -/
structure ExpandedOps where
  GetExpandedOp : SDValue → SDValue × SDValue
  isTypeLegal : EVT → Bool

/-- `DAGTypeLegalizer::ExpandOp_NormalStore`; `none` when an assertion fails. -/
def DAGTypeLegalizer.ExpandOp_NormalStore (self : DAGTypeLegalizer) (X : ExpandedOps)
    (N : StoreSDNode) (OpNo : Nat) : Option SDValue :=
  if ¬ ISD.isNormalStore N then none
  else if ¬ OpNo = 1 then none
  else
    let St := N
    let NVT := self.TLI.getTypeToTransformTo St.value.getValueType
    let Chain := St.chain
    let Ptr := St.basePtr
    let Alignment := St.alignment
    let isVolatile := St.isVolatile
    let isNonTemporal := St.isNonTemporal
    if ¬ NVT.isByteSized then none
    else
      let IncrementSize := NVT.getSizeInBits / 8
      let LoHi := X.GetExpandedOp St.value
      let LoHi := if self.TLI.isBigEndian then (LoHi.2, LoHi.1) else LoHi
      let Lo := SDValue.store Chain LoHi.1 Ptr St.pointerInfo isVolatile isNonTemporal Alignment
      let Ptr := SDValue.node ISD.ADD Ptr.getValueType
        [Ptr, self.getIntPtrConstant IncrementSize]
      if ¬ X.isTypeLegal Ptr.getValueType then none
      else
        let Hi := SDValue.store Chain LoHi.2 Ptr
          (MachinePointerInfo.getWithOffset St.pointerInfo IncrementSize)
          isVolatile isNonTemporal (self.MinAlign Alignment IncrementSize)
        some (SDValue.node ISD.TokenFactor EVT.Other [Lo, Hi])

/-- The `for` loop of `ExpandOp_BUILD_VECTOR` with `k` iterations left, at
index `i`, `NewElts` being the elements pushed so far. -/
def DAGTypeLegalizer.ExpandOp_BUILD_VECTOR_loop (self : DAGTypeLegalizer) (X : ExpandedOps)
    (N : SDNode) : Nat → Nat → List SDValue → Option (List SDValue)
  | 0, _, NewElts => some NewElts
  | k + 1, i, NewElts =>
    match N.getOperand i with
    | none => none
    | some op =>
      let LoHi := X.GetExpandedOp op
      let LoHi := if self.TLI.isBigEndian then (LoHi.2, LoHi.1) else LoHi
      DAGTypeLegalizer.ExpandOp_BUILD_VECTOR_loop self X N k (i + 1)
        (NewElts ++ [LoHi.1, LoHi.2])

/-- `DAGTypeLegalizer::ExpandOp_BUILD_VECTOR`; `none` when the assertion fails
or an operand is missing. -/
def DAGTypeLegalizer.ExpandOp_BUILD_VECTOR (self : DAGTypeLegalizer) (X : ExpandedOps)
    (N : SDNode) : Option SDValue :=
  -- The vector type is legal but the element type needs expansion.
  let VecVT := N.valueType
  let NumElts := VecVT.getVectorNumElements
  match N.getOperand 0 with
  | none => none
  | some op0 =>
    let OldVT := op0.getValueType
    let NewVT := self.TLI.getTypeToTransformTo OldVT
    if ¬ OldVT = VecVT.getVectorElementType then none
    else
      -- Build a vector of twice the length out of the expanded elements.
      match DAGTypeLegalizer.ExpandOp_BUILD_VECTOR_loop self X N NumElts 0 [] with
      | none => none
      | some NewElts =>
        let NewVec := SDValue.node ISD.BUILD_VECTOR (EVT.getVectorVT NewVT NewElts.length)
          NewElts
        -- Convert the new vector to the old vector type.
        some (SDValue.node ISD.BITCAST VecVT [NewVec])

/-- `DAGTypeLegalizer::ExpandRes_EXTRACT_VECTOR_ELT`: the pair `(Lo, Hi)`, or
`none` when an operand is missing. -/
def DAGTypeLegalizer.ExpandRes_EXTRACT_VECTOR_ELT (self : DAGTypeLegalizer) (N : SDNode) :
    Option (SDValue × SDValue) :=
  match N.getOperand 0, N.getOperand 1 with
  | some OldVec, some Idx0 =>
    let OldElts := OldVec.getValueType.getVectorNumElements
    -- Convert to a vector of the expanded element type, for example
    -- <3 x i64> -> <6 x i32>.
    let OldVT := N.valueType
    let NewVT := self.TLI.getTypeToTransformTo OldVT
    let NewVec := SDValue.node ISD.BITCAST (EVT.getVectorVT NewVT (2 * OldElts)) [OldVec]
    -- Make sure the type of Idx is big enough to hold the new values.
    let Idx :=
      if Idx0.getValueType.bitsLT self.TLI.getPointerTy then
        SDValue.node ISD.ZERO_EXTEND self.TLI.getPointerTy [Idx0]
      else Idx0
    -- Extract the elements at 2 * Idx and 2 * Idx + 1 from the new vector.
    let Idx := SDValue.node ISD.ADD Idx.getValueType [Idx, Idx]
    let Lo := SDValue.node ISD.EXTRACT_VECTOR_ELT NewVT [NewVec, Idx]
    let Idx := SDValue.node ISD.ADD Idx.getValueType
      [Idx, SDValue.constant 1 Idx.getValueType]
    let Hi := SDValue.node ISD.EXTRACT_VECTOR_ELT NewVT [NewVec, Idx]
    let LoHi := if self.TLI.isBigEndian then (Hi, Lo) else (Lo, Hi)
    some LoHi
  | _, _ => none

/-! ### Meaning of the nodes the routines create

Integer-valued nodes (addresses, indices) are evaluated over the natural
numbers, any node other than a constant, an `ADD` or a `ZERO_EXTEND` getting
its value from an environment.  The memory maps an address to the part stored
there.  A store writes its value at the address of its pointer; a token factor
of stores performs the writes of all of them, and since its operands are not
ordered among themselves the writes may be applied in the listed or in the
reverse order.  A load reads, at the address of its pointer, the memory that
results from applying the writes of its chain to the memory `m` found at the
chain on which those stores hang. -/

/-- The value of an integer-valued node. -/
def evalInt (env : SDValue → Nat) : SDValue → Nat
  | SDValue.constant val _ => val
  | SDValue.node ISD.ADD _ [a, b] => evalInt env a + evalInt env b
  | SDValue.node ISD.ZERO_EXTEND _ [a] => evalInt env a
  | x => env x

/-- A memory: the part found at each address, if any. -/
abbrev Mem := Nat → Option SDValue

/-- The memory after writing part `v` at address `a`. -/
def Mem.write (m : Mem) (a : Nat) (v : SDValue) : Mem :=
  fun x => if x = a then some v else m x

/-- The write a store node performs: address and part. -/
def storeWrite (env : SDValue → Nat) : SDValue → Option (Nat × SDValue)
  | SDValue.store _ val ptr _ _ _ _ => some (evalInt env ptr, val)
  | _ => none

/-- The writes of a list of store nodes. -/
def storeWriteList (env : SDValue → Nat) : List SDValue → Option (List (Nat × SDValue))
  | [] => some []
  | x :: rest =>
    match storeWrite env x, storeWriteList env rest with
    | some w, some ws => some (w :: ws)
    | _, _ => none

/-- The writes of a token: those of a store, or of all the stores of a token
factor. -/
def storeWrites (env : SDValue → Nat) : SDValue → Option (List (Nat × SDValue))
  | SDValue.node ISD.TokenFactor _ ops => storeWriteList env ops
  | x => (storeWrite env x).map (fun w => [w])

/-- The memory after applying a list of writes, first to last. -/
def applyWrites (ws : List (Nat × SDValue)) (m : Mem) : Mem :=
  ws.foldl (fun acc w => acc.write w.1 w.2) m

/-- The part a load value (result 0 of a load) reads, the writes of its chain
being applied to `m` in the listed order (`inOrder = true`) or in the reverse
order. -/
def loadValue (env : SDValue → Nat) (inOrder : Bool) (m : Mem) : SDValue → Option SDValue
  | SDValue.load _ chain ptr _ _ _ _ _ 0 =>
    match storeWrites env chain with
    | none => none
    | some ws => applyWrites (if inOrder then ws else ws.reverse) m (evalInt env ptr)
  | _ => none

/-- The elements of a vector value: the operands of a `BUILD_VECTOR`, also when
seen through a bitcast to another type and back to its own type. -/
def vectorElts : SDValue → Option (List SDValue)
  | SDValue.node ISD.BUILD_VECTOR _ ops => some ops
  | SDValue.node ISD.BITCAST vt [SDValue.node ISD.BITCAST _ [SDValue.node ISD.BUILD_VECTOR vt2 ops]] =>
    if vt2 = vt then some ops else none
  | _ => none

/-- The element an `EXTRACT_VECTOR_ELT` node reads. -/
def extractValue (env : SDValue → Nat) : SDValue → Option SDValue
  | SDValue.node ISD.EXTRACT_VECTOR_ELT _ [vec, idx] =>
    match vectorElts vec with
    | none => none
    | some elts => elts[evalInt env idx]?
  | _ => none

/-- The elements of the expanded vector as the specification words them: for
each operand in turn its two halves, `Lo` first on a little-endian target, `Hi`
first on a big-endian one. -/
def spec_expandedElts (bigEndian : Bool) (X : ExpandedOps) : List SDValue → List SDValue
  | [] => []
  | op :: rest =>
    (if bigEndian then (X.GetExpandedOp op).2 else (X.GetExpandedOp op).1) ::
    (if bigEndian then (X.GetExpandedOp op).1 else (X.GetExpandedOp op).2) ::
    spec_expandedElts bigEndian X rest

/-! ### Sample data for the operand routines -/

/-- The low part of sample operand `k`. -/
def partLo (k : Nat) : SDValue := SDValue.value (100 + 2 * k) 0 (EVT.scalar 32)

/-- The high part of sample operand `k`. -/
def partHi (k : Nat) : SDValue := SDValue.value (101 + 2 * k) 0 (EVT.scalar 32)

/-- Sample `i64` operand `k`: result 0 of node `k`. -/
def sampleOp (k : Nat) : SDValue := SDValue.value k 0 (EVT.scalar 64)

/-- A sample expansion record: the operand that is result 0 of node `k` has
the parts `partLo k` and `partHi k`; every type is legal. -/
def sampleExpanded : ExpandedOps :=
  { GetExpandedOp := fun op =>
      match op with
      | SDValue.value k _ _ => (partLo k, partHi k)
      | _ => (partLo 0, partHi 0)
    isTypeLegal := fun _ => true }

/-- A normal `i64` store of `sampleOp 3` to the address that is result 0 of
node 2, chained to the entry token. -/
def sampleStore : StoreSDNode :=
  { value := sampleOp 3
    chain := SDValue.value 1 0 EVT.Other
    basePtr := SDValue.value 2 0 (EVT.scalar 32)
    pointerInfo := MachinePointerInfo.info 0
    alignment := 8
    isVolatile := false
    isNonTemporal := false
    isTruncatingStore := false
    addressingMode := MemIndexedMode.UNINDEXED }

/-- An environment in which every pre-existing node has the value 1000. -/
def sampleEnv : SDValue → Nat := fun _ => 1000

/-- The empty memory. -/
def emptyMem : Mem := fun _ => none

/-- A `BUILD_VECTOR` node of type `<2 x i64>` with operands `sampleOp 5` and
`sampleOp 6`. -/
def sampleBuildVector : SDNode :=
  { valueType := EVT.vector 64 2, operands := [sampleOp 5, sampleOp 6] }

/-- The token of the expanded sample store on a little-endian target. -/
def sampleStoreToken : SDValue :=
  SDValue.node ISD.TokenFactor EVT.Other
    [SDValue.store (SDValue.value 1 0 EVT.Other) (partLo 3) (SDValue.value 2 0 (EVT.scalar 32))
        (MachinePointerInfo.info 0) false false 8,
     SDValue.store (SDValue.value 1 0 EVT.Other) (partHi 3)
        (SDValue.node ISD.ADD (EVT.scalar 32)
          [SDValue.value 2 0 (EVT.scalar 32), SDValue.constant 4 (EVT.scalar 32)])
        (MachinePointerInfo.getWithOffset (MachinePointerInfo.info 0) 4) false false 4]

/-- The sample load, chained to the token of the expanded sample store. -/
def sampleReload : LoadSDNode := { sampleLoad with chain := sampleStoreToken }

/-- The low half of the expanded `sampleReload` on a little-endian target. -/
def sampleReloadLo : SDValue :=
  SDValue.load (EVT.scalar 32) sampleStoreToken (SDValue.value 2 0 (EVT.scalar 32))
    (MachinePointerInfo.info 0) false false false 8 0

/-- The high half of the expanded `sampleReload` on a little-endian target. -/
def sampleReloadHi : SDValue :=
  SDValue.load (EVT.scalar 32) sampleStoreToken
    (SDValue.node ISD.ADD (EVT.scalar 32)
      [SDValue.value 2 0 (EVT.scalar 32), SDValue.constant 4 (EVT.scalar 32)])
    (MachinePointerInfo.getWithOffset (MachinePointerInfo.info 0) 4) false false false 4 0

/-- The expansion of `sampleBuildVector` on a little-endian target: a
`<4 x i32>` vector seen as `<2 x i64>`. -/
def sampleVec : SDValue :=
  SDValue.node ISD.BITCAST (EVT.vector 64 2)
    [SDValue.node ISD.BUILD_VECTOR (EVT.vector 32 4) [partLo 5, partHi 5, partLo 6, partHi 6]]

/-- An `EXTRACT_VECTOR_ELT` node of type `i64` reading element 1 of `sampleVec`. -/
def sampleExtract : SDNode :=
  { valueType := EVT.scalar 64, operands := [sampleVec, SDValue.constant 1 (EVT.scalar 32)] }

/-- The doubled index `1 + 1` of the expanded `sampleExtract`. -/
def sampleIdx2 : SDValue :=
  SDValue.node ISD.ADD (EVT.scalar 32)
    [SDValue.constant 1 (EVT.scalar 32), SDValue.constant 1 (EVT.scalar 32)]

/-- The low half of the expanded `sampleExtract` on a little-endian target. -/
def sampleExtLo : SDValue :=
  SDValue.node ISD.EXTRACT_VECTOR_ELT (EVT.scalar 32)
    [SDValue.node ISD.BITCAST (EVT.vector 32 4) [sampleVec], sampleIdx2]

/-- The high half of the expanded `sampleExtract` on a little-endian target. -/
def sampleExtHi : SDValue :=
  SDValue.node ISD.EXTRACT_VECTOR_ELT (EVT.scalar 32)
    [SDValue.node ISD.BITCAST (EVT.vector 32 4) [sampleVec],
     SDValue.node ISD.ADD (EVT.scalar 32) [sampleIdx2, SDValue.constant 1 (EVT.scalar 32)]]

end llvm

namespace Omap3

/-! ## Basic facts about words and the bus -/

theorem u32_lt (n : Nat) : u32 n < 4294967296 := by
  unfold u32; omega

theorem u32_of_lt {n : Nat} (h : n < 4294967296) : u32 n = n := by
  unfold u32; omega

theorem u32_u32 (n : Nat) : u32 (u32 n) = u32 n := u32_of_lt (u32_lt n)

theorem two_pow_lt_of_lt_32 {b : Nat} (h : b < 32) : 2 ^ b < 4294967296 := by
  have : (2 : Nat) ^ b < 2 ^ 32 := Nat.pow_lt_pow_right (by norm_num) h
  simpa using this

theorem shl1_eq {b : Nat} (h : b < 32) : shl1 b = 2 ^ b := by
  unfold shl1
  rw [Nat.one_shiftLeft]
  exact u32_of_lt (two_pow_lt_of_lt_32 h)

theorem or_lt_u32 {x y : Nat} (hx : x < 4294967296) (hy : y < 4294967296) :
    x ||| y < 4294967296 := by
  have h : x ||| y < 2 ^ 32 := Nat.or_lt_two_pow (by simpa using hx) (by simpa using hy)
  simpa using h

theorem and_lt_u32 {x : Nat} (y : Nat) (hx : x < 4294967296) : x &&& y < 4294967296 :=
  lt_of_le_of_lt Nat.and_le_left hx

theorem testBit_of_lt_u32 {x i : Nat} (hx : x < 4294967296) (hi : 32 ≤ i) :
    x.testBit i = false := by
  apply Nat.testBit_lt_two_pow
  calc x < 2 ^ 32 := by simpa using hx
    _ ≤ 2 ^ i := Nat.pow_le_pow_right (by norm_num) hi

theorem writesOf_append (a b : List BusOp) : writesOf (a ++ b) = writesOf a ++ writesOf b := by
  induction a with
  | nil => rfl
  | cons x t ih => cases x <;> simp [writesOf, ih]

theorem bus_read_4_regs (res off : Nat) (s : Bus) : (bus_read_4 res off s).2.regs = s.regs := by
  unfold bus_read_4; split <;> rfl

theorem bus_read_4_writes (res off : Nat) (s : Bus) :
    writesOf (bus_read_4 res off s).2.trace = writesOf s.trace := by
  unfold bus_read_4; split <;> simp [writesOf_append, writesOf]

theorem bus_read_4_val (res off : Nat) (s : Bus) :
    (bus_read_4 res off s).1 = s.peek res off 0 := by
  unfold bus_read_4 Bus.peek; split <;> simp_all

theorem bus_read_4_peek_same (res off : Nat) (s : Bus) (k : Nat) :
    (bus_read_4 res off s).2.peek res off k = s.peek res off (k + 1) := by
  unfold bus_read_4 Bus.peek; split <;> simp_all

theorem bus_read_4_peek_other (res off : Nat) (s : Bus) (r o k : Nat)
    (h : ¬ (r = res ∧ o = off)) :
    (bus_read_4 res off s).2.peek r o k = s.peek r o k := by
  unfold bus_read_4 Bus.peek; split
  · rfl
  · simp only [if_neg h]

theorem bus_write_4_peek_other (res off v : Nat) (s : Bus) (r o k : Nat)
    (h : ¬ (r = res ∧ o = off)) :
    (bus_write_4 res off v s).peek r o k = s.peek r o k := by
  unfold bus_write_4 Bus.peek; simp only [if_neg h]

theorem bus_read_4_store (res off : Nat) (s : Bus) (h : s.isStore) :
    bus_read_4 res off s =
      (s.cell res off, { s with trace := s.trace ++ [BusOp.read res off (s.cell res off)] }) := by
  unfold bus_read_4 Bus.cell; rw [h res off]

theorem bus_read_4_isStore (res off : Nat) (s : Bus) (h : s.isStore) :
    (bus_read_4 res off s).2.isStore := by
  rw [bus_read_4_store res off s h]; exact h

theorem bus_write_4_isStore (res off v : Nat) (s : Bus) (h : s.isStore) :
    (bus_write_4 res off v s).isStore := h

theorem bus_read_4_cell (res off : Nat) (s : Bus) (r o : Nat) :
    (bus_read_4 res off s).2.cell r o = s.cell r o := by
  unfold Bus.cell; rw [bus_read_4_regs]

theorem bus_write_4_cell_same (res off v : Nat) (s : Bus) :
    (bus_write_4 res off v s).cell res off = u32 v := by
  simp [bus_write_4, Bus.cell, u32_u32]

theorem bus_write_4_cell_other (res off v : Nat) (s : Bus) (r o : Nat)
    (h : ¬ (r = res ∧ o = off)) :
    (bus_write_4 res off v s).cell r o = s.cell r o := by
  simp [bus_write_4, Bus.cell, h]

theorem bus_write_4_regs_other (res off v : Nat) (s : Bus) (r o : Nat)
    (h : ¬ (r = res ∧ o = off)) :
    (bus_write_4 res off v s).regs r o = s.regs r o := by
  simp [bus_write_4, h]

theorem bus_write_4_writes (res off v : Nat) (s : Bus) :
    writesOf (bus_write_4 res off v s).trace = writesOf s.trace ++ [(res, off, u32 v)] := by
  simp [bus_write_4, writesOf_append, writesOf]

/-! ## The polling loop -/

theorem wait_loop_regs (res off mask cmp : Nat) (n : Nat) (s : Bus) :
    (omap3_clk_wait_on_reg_loop res off mask cmp n s).2.regs = s.regs := by
  induction n generalizing s with
  | zero => rfl
  | succ n ih =>
    simp only [omap3_clk_wait_on_reg_loop]
    split
    · exact bus_read_4_regs res off s
    · rw [ih]; exact bus_read_4_regs res off s

theorem wait_loop_writes (res off mask cmp : Nat) (n : Nat) (s : Bus) :
    writesOf (omap3_clk_wait_on_reg_loop res off mask cmp n s).2.trace = writesOf s.trace := by
  induction n generalizing s with
  | zero => rfl
  | succ n ih =>
    simp only [omap3_clk_wait_on_reg_loop]
    split
    · exact bus_read_4_writes res off s
    · rw [ih]; exact bus_read_4_writes res off s

theorem wait_loop_isStore (res off mask cmp : Nat) (n : Nat) (s : Bus) (h : s.isStore) :
    (omap3_clk_wait_on_reg_loop res off mask cmp n s).2.isStore := by
  induction n generalizing s with
  | zero => exact h
  | succ n ih =>
    simp only [omap3_clk_wait_on_reg_loop]
    split
    · exact bus_read_4_isStore res off s h
    · exact ih _ (bus_read_4_isStore res off s h)

/-- The loop times out exactly when every one of the `n` polls fails the
comparison. -/
theorem wait_loop_timeout_iff (res off mask cmp : Nat) (n : Nat) (s : Bus) :
    (omap3_clk_wait_on_reg_loop res off mask cmp n s).1 = ETIMEDOUT ↔
      ∀ k, k < n → s.peek res off k &&& mask ≠ cmp := by
  induction n generalizing s with
  | zero => simp [omap3_clk_wait_on_reg_loop]
  | succ n ih =>
    simp only [omap3_clk_wait_on_reg_loop]
    split
    · rename_i h
      rw [bus_read_4_val] at h
      constructor
      · intro h0; simp [ETIMEDOUT] at h0
      · intro hall; exact absurd h (hall 0 (Nat.succ_pos n))
    · rename_i h
      rw [bus_read_4_val] at h
      rw [ih]
      constructor
      · intro hall k hk
        cases k with
        | zero => exact h
        | succ k =>
          have := hall k (by omega)
          rwa [bus_read_4_peek_same] at this
      · intro hall k hk
        rw [bus_read_4_peek_same]
        exact hall (k + 1) (by omega)

/-- The loop returns either `0` or `ETIMEDOUT`. -/
theorem wait_loop_ret (res off mask cmp : Nat) (n : Nat) (s : Bus) :
    (omap3_clk_wait_on_reg_loop res off mask cmp n s).1 = 0 ∨
    (omap3_clk_wait_on_reg_loop res off mask cmp n s).1 = ETIMEDOUT := by
  induction n generalizing s with
  | zero => right; rfl
  | succ n ih =>
    simp only [omap3_clk_wait_on_reg_loop]
    split
    · left; rfl
    · exact ih _

theorem wait_loop_cell (res off mask cmp : Nat) (n : Nat) (s : Bus) (r o : Nat) :
    (omap3_clk_wait_on_reg_loop res off mask cmp n s).2.cell r o = s.cell r o := by
  unfold Bus.cell; rw [wait_loop_regs]

theorem bus_read_4_val_store (res off : Nat) (s : Bus) (h : s.isStore) :
    (bus_read_4 res off s).1 = s.cell res off := by
  rw [bus_read_4_store res off s h]

/-! ## The details table -/

theorem details_walk_some (K : ClkEnum) (id : Nat) (l : List struct_omap3_clk_details)
    (d : struct_omap3_clk_details) (h : omap3_clk_details_walk K id l = some d) :
    d ∈ l ∧ d.id ≠ K.INVALID_CLK_IDENT ∧ d.id = id := by
  induction l with
  | nil => simp [omap3_clk_details_walk] at h
  | cons w rest ih =>
    simp only [omap3_clk_details_walk] at h
    split at h
    · simp at h
    · rename_i hw
      split at h
      · rename_i hid
        simp only [Option.some.injEq] at h
        subst h
        exact ⟨List.mem_cons_self _ _, hw, hid.symm⟩
      · obtain ⟨h1, h2, h3⟩ := ih h
        exact ⟨List.mem_cons_of_mem _ h1, h2, h3⟩

/-- Every entry of the table other than the sentinel uses a bit below 32 and
three different registers laid out 0x10 apart. -/
theorem table_layout (K : ClkEnum) (d : struct_omap3_clk_details)
    (hmem : d ∈ g_omap3_clk_details K) (hid : d.id ≠ K.INVALID_CLK_IDENT) :
    d.bit_offset < 32 ∧ d.iclken_offset = d.fclken_offset + 0x10 ∧
      d.idlest_offset = d.fclken_offset + 0x20 := by
  simp only [g_omap3_clk_details, OMAP3_GENERIC_CLOCK_DETAILS, List.mem_cons,
    List.mem_singleton, List.not_mem_nil, or_false] at hmem
  rcases hmem with h | h | h | h | h | h | h | h | h | h | h | h | h | h | h | h | h | h | h |
    h | h | h | h | h | h | h | h | h | h <;> subst h <;> first
    | exact absurd rfl hid
    | exact ⟨by show _ < 32; norm_num, rfl, rfl⟩

theorem details_layout (K : ClkEnum) (id : Nat) (d : struct_omap3_clk_details)
    (h : omap3_clk_details K id = some d) :
    d.bit_offset < 32 ∧ d.iclken_offset = d.fclken_offset + 0x10 ∧
      d.idlest_offset = d.fclken_offset + 0x20 := by
  obtain ⟨h1, h2, _⟩ := details_walk_some K id _ d h
  exact table_layout K d h1 h2

/-! ## Read-modify-write on a store -/

theorem cell_lt (s : Bus) (r o : Nat) : s.cell r o < 4294967296 := u32_lt _

/-- A read of a register followed by a write of a function of the value read,
on a bus that behaves as a store. -/
theorem rmw_store (res off : Nat) (f : Nat → Nat) (s : Bus) (h : s.isStore) :
    (bus_write_4 res off (f (bus_read_4 res off s).1) (bus_read_4 res off s).2).isStore ∧
    (∀ r o, (bus_write_4 res off (f (bus_read_4 res off s).1) (bus_read_4 res off s).2).cell r o =
        if r = res ∧ o = off then u32 (f (s.cell res off)) else s.cell r o) ∧
    (∀ r o, ¬ (r = res ∧ o = off) →
        (bus_write_4 res off (f (bus_read_4 res off s).1) (bus_read_4 res off s).2).regs r o =
          s.regs r o) ∧
    writesOf (bus_write_4 res off (f (bus_read_4 res off s).1) (bus_read_4 res off s).2).trace =
        writesOf s.trace ++ [(res, off, u32 (f (s.cell res off)))] := by
  refine ⟨bus_write_4_isStore _ _ _ _ (bus_read_4_isStore _ _ _ h), ?_, ?_, ?_⟩
  · intro r o
    by_cases hro : r = res ∧ o = off
    · rw [if_pos hro, hro.1, hro.2, bus_write_4_cell_same, bus_read_4_val_store _ _ _ h]
    · rw [if_neg hro, bus_write_4_cell_other _ _ _ _ _ _ hro, bus_read_4_cell]
  · intro r o hro
    rw [bus_write_4_regs_other _ _ _ _ _ _ hro, bus_read_4_regs]
  · rw [bus_write_4_writes, bus_read_4_writes, bus_read_4_val_store _ _ _ h]

theorem ite_pair_snd {α β : Type} (c : Prop) [Decidable c] (a b : α) (s : β) :
    (if c then (a, s) else (b, s)).2 = s := by
  split <;> rfl

/-- The bus after `omap3_clk_generic_activate` on its main path equals the bus
after the polling loop. -/
theorem activate_snd (K : ClkEnum) (clkdev : omap_clock_dev) (mem_res : Nat → Option Resource)
    (s : Bus) (d : struct_omap3_clk_details) (res : Resource)
    (hd : omap3_clk_details K clkdev.id = some d)
    (hres : mem_res CM_INSTANCE_MEM_REGION = some res) :
    (omap3_clk_generic_activate K clkdev mem_res s).2 =
      (omap3_clk_wait_on_reg_loop res d.idlest_offset (shl1 d.bit_offset) 0
        MAX_MODULE_ENABLE_WAIT
        (bus_read_4 res d.fclken_offset
          (bus_write_4 res d.fclken_offset
            ((bus_read_4 res d.fclken_offset
              (bus_read_4 res d.iclken_offset
                (bus_write_4 res d.iclken_offset
                  ((bus_read_4 res d.iclken_offset s).1 ||| shl1 d.bit_offset)
                  (bus_read_4 res d.iclken_offset s).2)).2).1 ||| shl1 d.bit_offset)
            (bus_read_4 res d.fclken_offset
              (bus_read_4 res d.iclken_offset
                (bus_write_4 res d.iclken_offset
                  ((bus_read_4 res d.iclken_offset s).1 ||| shl1 d.bit_offset)
                  (bus_read_4 res d.iclken_offset s).2)).2).2)).2).2 := by
  simp only [omap3_clk_generic_activate, hd, hres, omap3_clk_wait_on_reg, ite_pair_snd]

/-- The return value of `omap3_clk_generic_activate` on its main path is decided
by the polling loop. -/
theorem activate_fst (K : ClkEnum) (clkdev : omap_clock_dev) (mem_res : Nat → Option Resource)
    (s : Bus) (d : struct_omap3_clk_details) (res : Resource)
    (hd : omap3_clk_details K clkdev.id = some d)
    (hres : mem_res CM_INSTANCE_MEM_REGION = some res) :
    (omap3_clk_generic_activate K clkdev mem_res s).1 =
      (omap3_clk_wait_on_reg_loop res d.idlest_offset (shl1 d.bit_offset) 0
        MAX_MODULE_ENABLE_WAIT
        (bus_read_4 res d.fclken_offset
          (bus_write_4 res d.fclken_offset
            ((bus_read_4 res d.fclken_offset
              (bus_read_4 res d.iclken_offset
                (bus_write_4 res d.iclken_offset
                  ((bus_read_4 res d.iclken_offset s).1 ||| shl1 d.bit_offset)
                  (bus_read_4 res d.iclken_offset s).2)).2).1 ||| shl1 d.bit_offset)
            (bus_read_4 res d.fclken_offset
              (bus_read_4 res d.iclken_offset
                (bus_write_4 res d.iclken_offset
                  ((bus_read_4 res d.iclken_offset s).1 ||| shl1 d.bit_offset)
                  (bus_read_4 res d.iclken_offset s).2)).2).2)).2).1 := by
  simp only [omap3_clk_generic_activate, hd, hres, omap3_clk_wait_on_reg]
  split
  · rename_i h
    rcases wait_loop_ret res d.idlest_offset (shl1 d.bit_offset) 0 MAX_MODULE_ENABLE_WAIT
      (bus_read_4 res d.fclken_offset
          (bus_write_4 res d.fclken_offset
            ((bus_read_4 res d.fclken_offset
              (bus_read_4 res d.iclken_offset
                (bus_write_4 res d.iclken_offset
                  ((bus_read_4 res d.iclken_offset s).1 ||| shl1 d.bit_offset)
                  (bus_read_4 res d.iclken_offset s).2)).2).1 ||| shl1 d.bit_offset)
            (bus_read_4 res d.fclken_offset
              (bus_read_4 res d.iclken_offset
                (bus_write_4 res d.iclken_offset
                  ((bus_read_4 res d.iclken_offset s).1 ||| shl1 d.bit_offset)
                  (bus_read_4 res d.iclken_offset s).2)).2).2)).2 with h0 | h1
    · exact absurd h0 h
    · exact h1.symm
  · rename_i h
    exact (not_not.mp h).symm

theorem or_bit_u32 (s : Bus) (r o : Nat) {b : Nat} (hb : b < 32) :
    u32 (s.cell r o ||| shl1 b) = s.cell r o ||| 2 ^ b := by
  rw [shl1_eq hb]
  exact u32_of_lt (or_lt_u32 (cell_lt s r o) (two_pow_lt_of_lt_32 hb))

/-- Effect of `omap3_clk_generic_activate` on a store. -/
theorem activate_store_effect (K : ClkEnum) (clkdev : omap_clock_dev)
    (mem_res : Nat → Option Resource) (s : Bus) (d : struct_omap3_clk_details) (res : Resource)
    (hd : omap3_clk_details K clkdev.id = some d)
    (hres : mem_res CM_INSTANCE_MEM_REGION = some res) (hstore : s.isStore) :
    (omap3_clk_generic_activate K clkdev mem_res s).2.isStore ∧
    (∀ r o, (omap3_clk_generic_activate K clkdev mem_res s).2.cell r o =
        if r = res ∧ o = d.fclken_offset then s.cell res d.fclken_offset ||| 2 ^ d.bit_offset
        else if r = res ∧ o = d.iclken_offset then
          s.cell res d.iclken_offset ||| 2 ^ d.bit_offset
        else s.cell r o) ∧
    (∀ r o, ¬ (r = res ∧ o = d.iclken_offset) → ¬ (r = res ∧ o = d.fclken_offset) →
        (omap3_clk_generic_activate K clkdev mem_res s).2.regs r o = s.regs r o) ∧
    writesOf (omap3_clk_generic_activate K clkdev mem_res s).2.trace =
      writesOf s.trace ++
        [(res, d.iclken_offset, s.cell res d.iclken_offset ||| 2 ^ d.bit_offset),
         (res, d.fclken_offset, s.cell res d.fclken_offset ||| 2 ^ d.bit_offset)] := by
  obtain ⟨hb, hi, _⟩ := details_layout K clkdev.id d hd
  have hne : ¬ (res = res ∧ d.fclken_offset = d.iclken_offset) := by omega
  rw [activate_snd K clkdev mem_res s d res hd hres]
  have A := rmw_store res d.iclken_offset (fun v => v ||| shl1 d.bit_offset) s hstore
  beta_reduce at A
  generalize bus_write_4 res d.iclken_offset
    ((bus_read_4 res d.iclken_offset s).1 ||| shl1 d.bit_offset)
    (bus_read_4 res d.iclken_offset s).2 = s2 at A ⊢
  obtain ⟨A1, A2, A3, A4⟩ := A
  have B1 := bus_read_4_isStore res d.iclken_offset s2 A1
  have B2 := bus_read_4_cell res d.iclken_offset s2
  have B3 := bus_read_4_regs res d.iclken_offset s2
  have B4 := bus_read_4_writes res d.iclken_offset s2
  generalize (bus_read_4 res d.iclken_offset s2).2 = s3 at B1 B2 B3 B4 ⊢
  have C := rmw_store res d.fclken_offset (fun v => v ||| shl1 d.bit_offset) s3 B1
  beta_reduce at C
  generalize bus_write_4 res d.fclken_offset
    ((bus_read_4 res d.fclken_offset s3).1 ||| shl1 d.bit_offset)
    (bus_read_4 res d.fclken_offset s3).2 = s5 at C ⊢
  obtain ⟨C1, C2, C3, C4⟩ := C
  have hs3f : s3.cell res d.fclken_offset = s.cell res d.fclken_offset := by
    rw [B2, A2, if_neg hne]
  rw [hs3f, or_bit_u32 s _ _ hb] at C2 C4
  rw [or_bit_u32 s _ _ hb] at A2 A4
  refine ⟨wait_loop_isStore _ _ _ _ _ _ (bus_read_4_isStore _ _ _ C1), ?_, ?_, ?_⟩
  · intro r o
    rw [wait_loop_cell, bus_read_4_cell, C2 r o, B2 r o, A2 r o]
  · intro r o h1 h2
    rw [wait_loop_regs, bus_read_4_regs, C3 r o h2, B3, A3 r o h1]
  · rw [wait_loop_writes, bus_read_4_writes, C4, B4, A4]
    simp

theorem and_two_pow_eq_zero_iff (x b : Nat) : x &&& 2 ^ b = 0 ↔ x.testBit b = false := by
  constructor
  · intro h
    have := congrArg (fun n => n.testBit b) h
    simpa [Nat.testBit_two_pow] using this
  · intro h
    apply Nat.eq_of_testBit_eq
    intro i
    rw [Nat.testBit_and, Nat.testBit_two_pow, Nat.zero_testBit]
    by_cases hbi : b = i
    · subst hbi; simp [h]
    · simp [hbi]

theorem testBit_or_two_pow (x b i : Nat) :
    (x ||| 2 ^ b).testBit i = (decide (i = b) || x.testBit i) := by
  rw [Nat.testBit_or, Nat.testBit_two_pow, Bool.or_comm]
  by_cases h : i = b
  · simp [h]
  · have : ¬ b = i := fun e => h e.symm
    simp [h, this]

/-! ## Claims about `omap3_clk_generic_activate` -/

/-- C1: for every clock id with an entry `d` in `g_omap3_clk_details` and a
non-NULL CM resource `res`, on a bus that behaves as a store,
`omap3_clk_generic_activate` returns 0 or ETIMEDOUT and afterwards bit
`d.bit_offset` is set in the registers at `d.iclken_offset` and
`d.fclken_offset`, every other bit of these two registers is as before, every
other register holds its old value, and the only writes made are one to each of
these two registers. -/
theorem omap3_clk_generic_activate_frame (K : ClkEnum) (clkdev : omap_clock_dev)
    (mem_res : Nat → Option Resource) (s : Bus) (d : struct_omap3_clk_details) (res : Resource)
    (hd : omap3_clk_details K clkdev.id = some d)
    (hres : mem_res CM_INSTANCE_MEM_REGION = some res) (hstore : s.isStore) :
    ((omap3_clk_generic_activate K clkdev mem_res s).1 = 0 ∨
      (omap3_clk_generic_activate K clkdev mem_res s).1 = ETIMEDOUT) ∧
    (∀ i, ((omap3_clk_generic_activate K clkdev mem_res s).2.cell res d.iclken_offset).testBit i =
        (decide (i = d.bit_offset) || (s.cell res d.iclken_offset).testBit i)) ∧
    (∀ i, ((omap3_clk_generic_activate K clkdev mem_res s).2.cell res d.fclken_offset).testBit i =
        (decide (i = d.bit_offset) || (s.cell res d.fclken_offset).testBit i)) ∧
    (∀ r o, ¬ (r = res ∧ o = d.iclken_offset) → ¬ (r = res ∧ o = d.fclken_offset) →
        (omap3_clk_generic_activate K clkdev mem_res s).2.regs r o = s.regs r o) ∧
    writesOf (omap3_clk_generic_activate K clkdev mem_res s).2.trace =
      writesOf s.trace ++
        [(res, d.iclken_offset, s.cell res d.iclken_offset ||| 2 ^ d.bit_offset),
         (res, d.fclken_offset, s.cell res d.fclken_offset ||| 2 ^ d.bit_offset)] := by
  obtain ⟨_, hcell, hregs, hwr⟩ := activate_store_effect K clkdev mem_res s d res hd hres hstore
  obtain ⟨_, hi, _⟩ := details_layout K clkdev.id d hd
  have hne : ¬ (res = res ∧ d.iclken_offset = d.fclken_offset) := by omega
  refine ⟨?_, ?_, ?_, hregs, hwr⟩
  · rw [activate_fst K clkdev mem_res s d res hd hres]
    exact wait_loop_ret _ _ _ _ _ _
  · intro i
    rw [hcell, if_neg hne, if_pos ⟨rfl, rfl⟩, testBit_or_two_pow]
  · intro i
    rw [hcell, if_pos ⟨rfl, rfl⟩, testBit_or_two_pow]

/-- Witness of C1: activating UART1 on the all-zero store. -/
theorem omap3_clk_generic_activate_frame_witness :
    writesOf (omap3_clk_generic_activate sampleEnum ⟨400⟩ allMapped zeroBus).2.trace =
      [(0, 0xA10, 8192), (0, 0xA00, 8192)] :=
  (omap3_clk_generic_activate_frame sampleEnum ⟨400⟩ allMapped zeroBus uart1Details 0
    rfl rfl (fun _ _ => rfl)).2.2.2.2

/-- The value that the `k`-th poll of the IDLEST register returns is not
disturbed by the accesses to ICLKEN and FCLKEN that precede the polling. -/
theorem activate_poll_peek (res : Resource) (d : struct_omap3_clk_details) (s : Bus) (k : Nat)
    (hi : d.iclken_offset = d.fclken_offset + 0x10)
    (hl : d.idlest_offset = d.fclken_offset + 0x20) :
    (bus_read_4 res d.fclken_offset
      (bus_write_4 res d.fclken_offset
        ((bus_read_4 res d.fclken_offset
          (bus_read_4 res d.iclken_offset
            (bus_write_4 res d.iclken_offset
              ((bus_read_4 res d.iclken_offset s).1 ||| shl1 d.bit_offset)
              (bus_read_4 res d.iclken_offset s).2)).2).1 ||| shl1 d.bit_offset)
        (bus_read_4 res d.fclken_offset
          (bus_read_4 res d.iclken_offset
            (bus_write_4 res d.iclken_offset
              ((bus_read_4 res d.iclken_offset s).1 ||| shl1 d.bit_offset)
              (bus_read_4 res d.iclken_offset s).2)).2).2)).2.peek res d.idlest_offset k =
      s.peek res d.idlest_offset k := by
  have h1 : ¬ (res = res ∧ d.idlest_offset = d.fclken_offset) := by omega
  have h2 : ¬ (res = res ∧ d.idlest_offset = d.iclken_offset) := by omega
  rw [bus_read_4_peek_other _ _ _ _ _ _ h1, bus_write_4_peek_other _ _ _ _ _ _ _ h1,
    bus_read_4_peek_other _ _ _ _ _ _ h1, bus_read_4_peek_other _ _ _ _ _ _ h2,
    bus_write_4_peek_other _ _ _ _ _ _ _ h2, bus_read_4_peek_other _ _ _ _ _ _ h2]

/-- C2: `omap3_clk_generic_activate` returns ENXIO when the clock id has no
details entry and ENOMEM when the entry exists but the CM resource is NULL, in
both cases leaving the bus (registers and access trace) untouched; otherwise it
returns ETIMEDOUT exactly when bit `bit_offset` of IDLEST reads as 1 on all
1000 polls and 0 exactly when one of the 1000 polls reads it as 0; the three
error codes are positive. -/
theorem omap3_clk_generic_activate_return (K : ClkEnum) (clkdev : omap_clock_dev)
    (mem_res : Nat → Option Resource) (s : Bus) :
    (omap3_clk_details K clkdev.id = none →
      omap3_clk_generic_activate K clkdev mem_res s = ( ENXIO, s)) ∧
    (∀ d, omap3_clk_details K clkdev.id = some d → mem_res CM_INSTANCE_MEM_REGION = none →
      omap3_clk_generic_activate K clkdev mem_res s = ( ENOMEM, s)) ∧
    (∀ d res, omap3_clk_details K clkdev.id = some d →
      mem_res CM_INSTANCE_MEM_REGION = some res →
      ((omap3_clk_generic_activate K clkdev mem_res s).1 = ETIMEDOUT ↔
        ∀ k, k < 1000 → (s.peek res d.idlest_offset k).testBit d.bit_offset = true) ∧
      ((omap3_clk_generic_activate K clkdev mem_res s).1 = 0 ↔
        ∃ k, k < 1000 ∧ (s.peek res d.idlest_offset k).testBit d.bit_offset = false)) ∧
    (0 < ENXIO ∧ 0 < ENOMEM ∧ 0 < ETIMEDOUT) := by
  refine ⟨?_, ?_, ?_, by decide⟩
  · intro h
    simp only [omap3_clk_generic_activate, h]
  · intro d hd hres
    simp only [omap3_clk_generic_activate, hd, hres]
  · intro d res hd hres
    obtain ⟨hb, hi, hl⟩ := details_layout K clkdev.id d hd
    have key : (omap3_clk_generic_activate K clkdev mem_res s).1 = ETIMEDOUT ↔
        ∀ k, k < 1000 → (s.peek res d.idlest_offset k).testBit d.bit_offset = true := by
      rw [activate_fst K clkdev mem_res s d res hd hres, wait_loop_timeout_iff]
      simp only [activate_poll_peek res d s _ hi hl]
      simp only [shl1_eq hb, MAX_MODULE_ENABLE_WAIT, ne_eq, and_two_pow_eq_zero_iff,
        Bool.not_eq_false]
    refine ⟨key, ?_⟩
    have hret : (omap3_clk_generic_activate K clkdev mem_res s).1 = 0 ∨
        (omap3_clk_generic_activate K clkdev mem_res s).1 = ETIMEDOUT := by
      rw [activate_fst K clkdev mem_res s d res hd hres]
      exact wait_loop_ret _ _ _ _ _ _
    constructor
    · intro h0
      by_contra hno
      have hall : ∀ k, k < 1000 → (s.peek res d.idlest_offset k).testBit d.bit_offset = true := by
        intro k hk
        by_contra hk2
        exact hno ⟨k, hk, by simpa using hk2⟩
      have := key.mpr hall
      rw [h0] at this
      exact absurd this (by decide)
    · rintro ⟨k, hk, hbit⟩
      rcases hret with h0 | ht
      · exact h0
      · have := key.mp ht k hk
        rw [hbit] at this
        exact absurd this (by decide)

/-- Witness of C2: on the all-zero store the IDLEST bit of UART1 reads as 0 on
the first poll, so the activation returns 0. -/
theorem omap3_clk_generic_activate_return_witness :
    (omap3_clk_generic_activate sampleEnum ⟨400⟩ allMapped zeroBus).1 = 0 :=
  ((omap3_clk_generic_activate_return sampleEnum ⟨400⟩ allMapped zeroBus).2.2.1
    uart1Details 0 rfl rfl).2.mpr ⟨0, by decide, by decide⟩

/-! ## Claims about `omap3_clk_generic_deactivate` -/

theorem testBit_and_not_bit {x : Nat} (hx : x < 4294967296) {b : Nat} (hb : b < 32) (i : Nat) :
    (x &&& not32 (shl1 b)).testBit i = (decide (i ≠ b) && x.testBit i) := by
  have h32 : (4294967295 : Nat) = 2 ^ 32 - 1 := by norm_num
  rw [not32, shl1_eq hb, u32_of_lt (two_pow_lt_of_lt_32 hb), Nat.testBit_and, Nat.testBit_xor,
    Nat.testBit_two_pow, h32, Nat.testBit_two_pow_sub_one]
  by_cases hi : i < 32
  · by_cases hbi : b = i
    · subst hbi; simp [hi]
    · have : ¬ i = b := fun e => hbi e.symm
      simp [hi, hbi, this, Bool.and_comm]
  · rw [testBit_of_lt_u32 hx (by omega)]; simp

theorem and_not_bit_u32 (s : Bus) (r o : Nat) (b : Nat) :
    u32 (s.cell r o &&& not32 (shl1 b)) = s.cell r o &&& not32 (shl1 b) :=
  u32_of_lt (and_lt_u32 _ (cell_lt s r o))

/-- Effect of `omap3_clk_generic_deactivate` on a store. -/
theorem deactivate_store_effect (K : ClkEnum) (clkdev : omap_clock_dev)
    (mem_res : Nat → Option Resource) (s : Bus) (d : struct_omap3_clk_details) (res : Resource)
    (hd : omap3_clk_details K clkdev.id = some d)
    (hres : mem_res CM_INSTANCE_MEM_REGION = some res) (hstore : s.isStore) :
    (omap3_clk_generic_deactivate K clkdev mem_res s).1 = 0 ∧
    (∀ r o, (omap3_clk_generic_deactivate K clkdev mem_res s).2.cell r o =
        if r = res ∧ o = d.fclken_offset then
          s.cell res d.fclken_offset &&& not32 (shl1 d.bit_offset)
        else if r = res ∧ o = d.iclken_offset then
          s.cell res d.iclken_offset &&& not32 (shl1 d.bit_offset)
        else s.cell r o) := by
  obtain ⟨hb, hi, _⟩ := details_layout K clkdev.id d hd
  have hne : ¬ (res = res ∧ d.fclken_offset = d.iclken_offset) := by omega
  simp only [omap3_clk_generic_deactivate, hd, hres, true_and]
  have A := rmw_store res d.iclken_offset (fun v => v &&& not32 (shl1 d.bit_offset)) s hstore
  beta_reduce at A
  generalize bus_write_4 res d.iclken_offset
    ((bus_read_4 res d.iclken_offset s).1 &&& not32 (shl1 d.bit_offset))
    (bus_read_4 res d.iclken_offset s).2 = s2 at A ⊢
  obtain ⟨A1, A2, _, _⟩ := A
  have C := rmw_store res d.fclken_offset (fun v => v &&& not32 (shl1 d.bit_offset)) s2 A1
  beta_reduce at C
  generalize bus_write_4 res d.fclken_offset
    ((bus_read_4 res d.fclken_offset s2).1 &&& not32 (shl1 d.bit_offset))
    (bus_read_4 res d.fclken_offset s2).2 = s4 at C ⊢
  obtain ⟨_, C2, _, _⟩ := C
  have hs2f : s2.cell res d.fclken_offset = s.cell res d.fclken_offset := by
    rw [A2, if_neg hne]
  rw [hs2f, and_not_bit_u32] at C2
  rw [and_not_bit_u32] at A2
  intro r o
  rw [C2 r o, A2 r o]

/-- C3 (amended): for every clock id with a details entry `d` and a non-NULL CM
resource `res`, on a bus that behaves as a store, `omap3_clk_generic_deactivate`
returns 0 and clears exactly bit `d.bit_offset` of the ICLKEN and the FCLKEN
register, leaving their other bits unchanged; hence, if that bit was clear in
both registers, activating and then deactivating restores both registers to
their initial values. -/
theorem omap3_clk_generic_deactivate_undoes_activate (K : ClkEnum) (clkdev : omap_clock_dev)
    (mem_res : Nat → Option Resource) (s : Bus) (d : struct_omap3_clk_details) (res : Resource)
    (hd : omap3_clk_details K clkdev.id = some d)
    (hres : mem_res CM_INSTANCE_MEM_REGION = some res) (hstore : s.isStore) :
    (omap3_clk_generic_deactivate K clkdev mem_res s).1 = 0 ∧
    (∀ i, ((omap3_clk_generic_deactivate K clkdev mem_res s).2.cell res d.iclken_offset).testBit i
        = (decide (i ≠ d.bit_offset) && (s.cell res d.iclken_offset).testBit i)) ∧
    (∀ i, ((omap3_clk_generic_deactivate K clkdev mem_res s).2.cell res d.fclken_offset).testBit i
        = (decide (i ≠ d.bit_offset) && (s.cell res d.fclken_offset).testBit i)) ∧
    ((s.cell res d.iclken_offset).testBit d.bit_offset = false →
      (s.cell res d.fclken_offset).testBit d.bit_offset = false →
      (omap3_clk_generic_deactivate K clkdev mem_res
          (omap3_clk_generic_activate K clkdev mem_res s).2).1 = 0 ∧
      (omap3_clk_generic_deactivate K clkdev mem_res
          (omap3_clk_generic_activate K clkdev mem_res s).2).2.cell res d.iclken_offset =
        s.cell res d.iclken_offset ∧
      (omap3_clk_generic_deactivate K clkdev mem_res
          (omap3_clk_generic_activate K clkdev mem_res s).2).2.cell res d.fclken_offset =
        s.cell res d.fclken_offset) := by
  obtain ⟨hb, hi, _⟩ := details_layout K clkdev.id d hd
  have hne : ¬ (res = res ∧ d.iclken_offset = d.fclken_offset) := by omega
  obtain ⟨hret, hcell⟩ := deactivate_store_effect K clkdev mem_res s d res hd hres hstore
  obtain ⟨astore, acell, _, _⟩ := activate_store_effect K clkdev mem_res s d res hd hres hstore
  obtain ⟨hret2, hcell2⟩ := deactivate_store_effect K clkdev mem_res _ d res hd hres astore
  refine ⟨hret, ?_, ?_, ?_⟩
  · intro i
    rw [hcell, if_neg hne, if_pos ⟨rfl, rfl⟩, testBit_and_not_bit (cell_lt _ _ _) hb]
  · intro i
    rw [hcell, if_pos ⟨rfl, rfl⟩, testBit_and_not_bit (cell_lt _ _ _) hb]
  · intro h1 h2
    refine ⟨hret2, ?_, ?_⟩
    · rw [hcell2, if_neg hne, if_pos ⟨rfl, rfl⟩]
      apply Nat.eq_of_testBit_eq
      intro i
      rw [testBit_and_not_bit (cell_lt _ _ _) hb, acell, if_neg hne, if_pos ⟨rfl, rfl⟩,
        testBit_or_two_pow]
      by_cases hib : i = d.bit_offset
      · subst hib; simp [h1]
      · simp [hib]
    · rw [hcell2, if_pos ⟨rfl, rfl⟩]
      apply Nat.eq_of_testBit_eq
      intro i
      rw [testBit_and_not_bit (cell_lt _ _ _) hb, acell, if_pos ⟨rfl, rfl⟩, testBit_or_two_pow]
      by_cases hib : i = d.bit_offset
      · subst hib; simp [h2]
      · simp [hib]

/-- C3 as stated fails when the CM resource is NULL: UART1 has a details
entry and the bus is a store, yet `omap3_clk_generic_deactivate` returns ENOMEM
(not 0) and makes no access at all. -/
theorem omap3_clk_generic_deactivate_null_cm :
    omap3_clk_details sampleEnum 400 = some uart1Details ∧ zeroBus.isStore ∧
    (omap3_clk_generic_deactivate sampleEnum ⟨400⟩ noneMapped zeroBus).1 = ENOMEM ∧
    (omap3_clk_generic_deactivate sampleEnum ⟨400⟩ noneMapped zeroBus).1 ≠ 0 ∧
    (omap3_clk_generic_deactivate sampleEnum ⟨400⟩ noneMapped zeroBus).2.trace = [] :=
  ⟨rfl, fun _ _ => rfl, rfl, by decide, rfl⟩

/-- Witness of C3: on the all-zero store, activating and then deactivating
UART1 leaves ICLKEN and FCLKEN at zero. -/
theorem omap3_clk_generic_deactivate_undoes_activate_witness :
    (omap3_clk_generic_deactivate sampleEnum ⟨400⟩ allMapped
        (omap3_clk_generic_activate sampleEnum ⟨400⟩ allMapped zeroBus).2).1 = 0 ∧
    (omap3_clk_generic_deactivate sampleEnum ⟨400⟩ allMapped
        (omap3_clk_generic_activate sampleEnum ⟨400⟩ allMapped zeroBus).2).2.cell 0 0xA10 = 0 ∧
    (omap3_clk_generic_deactivate sampleEnum ⟨400⟩ allMapped
        (omap3_clk_generic_activate sampleEnum ⟨400⟩ allMapped zeroBus).2).2.cell 0 0xA00 = 0 :=
  (omap3_clk_generic_deactivate_undoes_activate sampleEnum ⟨400⟩ allMapped zeroBus uart1Details 0
    rfl rfl (fun _ _ => rfl)).2.2.2 (by decide) (by decide)

/-! ## Claims about `omap3_clk_get_sysclk_freq` -/

theorem and_7_lt (n : Nat) : n &&& 7 < 8 := by
  have h := Nat.and_pow_two_sub_one_eq_mod n 3
  norm_num at h
  rw [h]; omega

theorem and_C0_cases (c : Nat) :
    c &&& 0xC0 = 0 ∨ c &&& 0xC0 = 0x40 ∨ c &&& 0xC0 = 0x80 ∨ c &&& 0xC0 = 0xC0 := by
  have h1 : c &&& 0xC0 = (c % 256) &&& 0xC0 := by
    have h := Nat.and_pow_two_sub_one_eq_mod c 8
    norm_num at h
    rw [← h, Nat.and_assoc]
    rfl
  rw [h1]
  have hlt : c % 256 < 256 := Nat.mod_lt _ (by norm_num)
  generalize c % 256 = m at hlt
  interval_cases m <;> decide

/-- The observable outcome of `omap3_clk_get_sysclk_freq` in terms of the two
values read. -/
theorem sysclk_observe (clkdev : Option omap_clock_dev) (freq : Option Nat)
    (mem_res : Nat → Option Resource) (prm : Resource) (s : Bus)
    (hprm : mem_res PRM_INSTANCE_MEM_REGION = some prm) :
    observe (omap3_clk_get_sysclk_freq clkdev freq mem_res s) =
      if 6 ≤ s.peek prm 0xD40 0 &&& 7 then
        Except.error (Trap.panic "omap3_clk_get_sysclk_freq: Invalid clock freq")
      else if s.peek prm 0x1270 0 &&& 0xC0 = 0x40 ∨ s.peek prm 0x1270 0 &&& 0xC0 = 0x80 then
        Except.ok (0, freq.map (fun _ =>
          spec_osc (s.peek prm 0xD40 0 &&& 7) / spec_div (s.peek prm 0x1270 0 &&& 0xC0)))
      else
        Except.error (Trap.panic "omap3_clk_get_sysclk_freq: Invalid system clock divider") := by
  have hne : ¬ (prm = prm ∧ (0x1270 : Nat) = 0xD40) := by omega
  have hc : (bus_read_4 prm (GLOBAL_PRM_OFFSET + 0x70)
      (bus_read_4 prm (CLOCK_CTRL_PRM_OFFSET + 0x40) s).2).1 = s.peek prm 0x1270 0 := by
    rw [bus_read_4_val]
    exact bus_read_4_peek_other _ _ _ _ _ _ hne
  have hn : (bus_read_4 prm (CLOCK_CTRL_PRM_OFFSET + 0x40) s).1 = s.peek prm 0xD40 0 :=
    bus_read_4_val _ _ _
  simp only [omap3_clk_get_sysclk_freq, hprm, hc, hn]
  have h7 := and_7_lt (s.peek prm 0xD40 0)
  generalize s.peek prm 0xD40 0 &&& 7 = a at h7
  rcases and_C0_cases (s.peek prm 0x1270 0) with h | h | h | h <;> rw [h] <;>
    interval_cases a <;> simp [observe, spec_osc, spec_div]

/-- C4: with `n` the value read from PRM_CLKSEL (PRM offset 0xD40) and `c` the
value read from the clock-source-control register (PRM offset 0x1270),
`omap3_clk_get_sysclk_freq` returns 0 and stores `spec_osc (n & 7) / spec_div
(c & 0xC0)` whenever `(n & 7)` is in 0..5 and `(c & 0xC0)` is 0x40 or 0x80; it
panics exactly when `(n & 7)` is 6 or 7 or `(c & 0xC0)` is 0x00 or 0xC0; and
two bus states that agree on `n & 7` and `c & 0xC0` give the same outcome. -/
theorem omap3_clk_get_sysclk_freq_decode (clkdev : Option omap_clock_dev) (old : Nat)
    (mem_res : Nat → Option Resource) (prm : Resource) (s : Bus)
    (hprm : mem_res PRM_INSTANCE_MEM_REGION = some prm) :
    (s.peek prm 0xD40 0 &&& 7 ≤ 5 →
      (s.peek prm 0x1270 0 &&& 0xC0 = 0x40 ∨ s.peek prm 0x1270 0 &&& 0xC0 = 0x80) →
      observe (omap3_clk_get_sysclk_freq clkdev (some old) mem_res s) =
        Except.ok (0, some (spec_osc (s.peek prm 0xD40 0 &&& 7) /
          spec_div (s.peek prm 0x1270 0 &&& 0xC0)))) ∧
    ((∃ msg, observe (omap3_clk_get_sysclk_freq clkdev (some old) mem_res s) =
        Except.error (Trap.panic msg)) ↔
      (s.peek prm 0xD40 0 &&& 7 = 6 ∨ s.peek prm 0xD40 0 &&& 7 = 7 ∨
        s.peek prm 0x1270 0 &&& 0xC0 = 0x00 ∨ s.peek prm 0x1270 0 &&& 0xC0 = 0xC0)) ∧
    (∀ t : Bus, t.peek prm 0xD40 0 &&& 7 = s.peek prm 0xD40 0 &&& 7 →
      t.peek prm 0x1270 0 &&& 0xC0 = s.peek prm 0x1270 0 &&& 0xC0 →
      observe (omap3_clk_get_sysclk_freq clkdev (some old) mem_res t) =
        observe (omap3_clk_get_sysclk_freq clkdev (some old) mem_res s)) := by
  refine ⟨?_, ?_, ?_⟩
  · intro hn hc
    rw [sysclk_observe clkdev (some old) mem_res prm s hprm, if_neg (by omega), if_pos hc]
    rfl
  · rw [sysclk_observe clkdev (some old) mem_res prm s hprm]
    have h7 := and_7_lt (s.peek prm 0xD40 0)
    constructor
    · rintro ⟨msg, h⟩
      by_cases h6 : 6 ≤ s.peek prm 0xD40 0 &&& 7
      · omega
      · rw [if_neg h6] at h
        by_cases hc : s.peek prm 0x1270 0 &&& 0xC0 = 0x40 ∨ s.peek prm 0x1270 0 &&& 0xC0 = 0x80
        · rw [if_pos hc] at h; cases h
        · rcases and_C0_cases (s.peek prm 0x1270 0) with h0 | h0 | h0 | h0
          · exact Or.inr (Or.inr (Or.inl h0))
          · exact absurd (Or.inl h0) hc
          · exact absurd (Or.inr h0) hc
          · exact Or.inr (Or.inr (Or.inr h0))
    · intro h
      by_cases h6 : 6 ≤ s.peek prm 0xD40 0 &&& 7
      · rw [if_pos h6]; exact ⟨_, rfl⟩
      · rw [if_neg h6]
        have hc : ¬ (s.peek prm 0x1270 0 &&& 0xC0 = 0x40 ∨
            s.peek prm 0x1270 0 &&& 0xC0 = 0x80) := by
          rcases h with h | h | h | h
          · omega
          · omega
          · rw [h]; decide
          · rw [h]; decide
        rw [if_neg hc]; exact ⟨_, rfl⟩
  · intro t hn hc
    rw [sysclk_observe clkdev (some old) mem_res prm s hprm,
      sysclk_observe clkdev (some old) mem_res prm t hprm, hn, hc]

/-- Witness of C4: a 26 MHz oscillator (`n = 3`) divided by two (`c = 0x80`)
gives a 13 MHz system clock. -/
theorem omap3_clk_get_sysclk_freq_decode_witness :
    observe (omap3_clk_get_sysclk_freq none (some 0) allMapped (clockBus 3 0x80 0 0)) =
      Except.ok (0, some 13000000) :=
  (omap3_clk_get_sysclk_freq_decode none 0 allMapped 1 (clockBus 3 0x80 0 0) rfl).1
    (by decide) (by decide)

/-! ## Claims about `omap3_clk_get_arm_fclk_freq` -/

/-- C5: the 32-bit product `sysclk * M` wraps.  With a 13 MHz system clock
(26 MHz oscillator divided by two) and DPLL3 programmed with M = 332, N = 12,
M2 = 1 (register value 0x094C0C00), and the MPU divider register holding
Mm = 1, Nm = 0, `omap3_clk_get_arm_fclk_freq` returns 0 and stores 1617900,
whereas the formula over unbounded integers gives 332000000. -/
theorem omap3_clk_get_arm_fclk_freq_wraps :
    observe (omap3_clk_get_arm_fclk_freq none (some 0) allMapped
        (clockBus 3 0x80 0x094C0C00 0x100)) = Except.ok (0, some 1617900) ∧
    observe (omap3_clk_get_sysclk_freq none (some 0) allMapped
        (clockBus 3 0x80 0x094C0C00 0x100)) = Except.ok (0, some 13000000) ∧
    0x094C0C00 >>> 27 ≠ 0 ∧
    spec_mpuclk 13000000 0x094C0C00 0x100 = 332000000 :=
  ⟨rfl, rfl, by decide, by decide⟩

/-! ## Claims about the GP timer source selection -/

theorem peek_store (s : Bus) (h : s.isStore) (r o k : Nat) : s.peek r o k = s.cell r o := by
  unfold Bus.peek Bus.cell; rw [h r o]; rfl

theorem observe_ok {r : Except Trap (Int × Option Nat × Bus)} {a : Int} {b : Option Nat}
    (h : observe r = Except.ok (a, b)) : ∃ t, r = Except.ok (a, b, t) := by
  cases r with
  | error e => simp [observe] at h
  | ok v =>
    obtain ⟨x, y, t⟩ := v
    simp only [observe, Except.ok.injEq, Prod.mk.injEq] at h
    exact ⟨t, by rw [h.1, h.2]⟩

/-- Under the numbering assumption no timer id is the sentinel id. -/
theorem gptimer_ne_invalid (K : ClkEnum) (hK : K.timersInSequence) :
    K.GPTIMER1_CLK ≠ K.INVALID_CLK_IDENT ∧ K.GPTIMER2_CLK ≠ K.INVALID_CLK_IDENT ∧
    K.GPTIMER3_CLK ≠ K.INVALID_CLK_IDENT ∧ K.GPTIMER4_CLK ≠ K.INVALID_CLK_IDENT ∧
    K.GPTIMER5_CLK ≠ K.INVALID_CLK_IDENT ∧ K.GPTIMER6_CLK ≠ K.INVALID_CLK_IDENT ∧
    K.GPTIMER7_CLK ≠ K.INVALID_CLK_IDENT ∧ K.GPTIMER8_CLK ≠ K.INVALID_CLK_IDENT ∧
    K.GPTIMER9_CLK ≠ K.INVALID_CLK_IDENT ∧ K.GPTIMER10_CLK ≠ K.INVALID_CLK_IDENT ∧
    K.GPTIMER11_CLK ≠ K.INVALID_CLK_IDENT := by
  unfold ClkEnum.timersInSequence at hK
  obtain ⟨h2, h3, h4, h5, h6, h7, h8, h9, h10, h11, hinv, hu1, hu2, hu3⟩ := hK
  clear hu1 hu2 hu3
  refine ⟨?_, ?_, ?_, ?_, ?_, ?_, ?_, ?_, ?_, ?_, ?_⟩ <;> omega

theorem walk_cons_isSome (K : ClkEnum) (id : Nat) (x : struct_omap3_clk_details)
    (rest : List struct_omap3_clk_details) (hx : x.id ≠ K.INVALID_CLK_IDENT)
    (h : id ≠ x.id → (omap3_clk_details_walk K id rest).isSome = true) :
    (omap3_clk_details_walk K id (x :: rest)).isSome = true := by
  simp only [omap3_clk_details_walk, if_neg hx]
  split
  · rfl
  · rename_i hne; exact h hne

/-- Under the numbering assumption every timer id has a details entry. -/
theorem gptimer_details_isSome (K : ClkEnum) (hK : K.timersInSequence) (id : Nat)
    (hid : id ∈ K.gptimers) : (omap3_clk_details K id).isSome = true := by
  obtain ⟨g1, g2, g3, g4, g5, g6, g7, g8, g9, g10, g11⟩ := gptimer_ne_invalid K hK
  unfold ClkEnum.timersInSequence at hK
  obtain ⟨_, _, _, _, _, _, _, _, _, _, _, hu1, hu2, hu3⟩ := hK
  simp only [ClkEnum.gptimers, List.mem_cons, List.mem_singleton, List.not_mem_nil,
    or_false] at hid
  unfold omap3_clk_details g_omap3_clk_details
  refine walk_cons_isSome K id _ _ hu1 (fun _ => ?_)
  refine walk_cons_isSome K id _ _ hu2 (fun _ => ?_)
  refine walk_cons_isSome K id _ _ hu3 (fun _ => ?_)
  refine walk_cons_isSome K id _ _ g1 (fun n1 => ?_)
  refine walk_cons_isSome K id _ _ g2 (fun n2 => ?_)
  refine walk_cons_isSome K id _ _ g3 (fun n3 => ?_)
  refine walk_cons_isSome K id _ _ g4 (fun n4 => ?_)
  refine walk_cons_isSome K id _ _ g5 (fun n5 => ?_)
  refine walk_cons_isSome K id _ _ g6 (fun n6 => ?_)
  refine walk_cons_isSome K id _ _ g7 (fun n7 => ?_)
  refine walk_cons_isSome K id _ _ g8 (fun n8 => ?_)
  refine walk_cons_isSome K id _ _ g9 (fun n9 => ?_)
  refine walk_cons_isSome K id _ _ g10 (fun n10 => ?_)
  refine walk_cons_isSome K id _ _ g11 (fun n11 => ?_)
  rcases hid with h | h | h | h | h | h | h | h | h | h | h
  · exact absurd h n1
  · exact absurd h n2
  · exact absurd h n3
  · exact absurd h n4
  · exact absurd h n5
  · exact absurd h n6
  · exact absurd h n7
  · exact absurd h n8
  · exact absurd h n9
  · exact absurd h n10
  · exact absurd h n11

/-- Under the numbering assumption the `switch` selects, for every timer id, a
bit below 32 of one of the three CLKSEL registers. -/
theorem gptimer_switch_some (K : ClkEnum) (hK : K.timersInSequence) (id : Nat)
    (hid : id ∈ K.gptimers) :
    ∃ bit regoff, gptimer_clksel_switch K id = some (bit, regoff) ∧ bit < 32 ∧
      (regoff = 0xC40 ∨ regoff = 0x1040 ∨ regoff = 0xA40) := by
  simp only [ClkEnum.gptimers, List.mem_cons, List.mem_singleton, List.not_mem_nil,
    or_false] at hid
  unfold ClkEnum.timersInSequence at hK
  obtain ⟨h2, h3, h4, h5, h6, h7, h8, h9, h10, h11, hinv, hu1, hu2, hu3⟩ := hK
  clear hinv hu1 hu2 hu3
  unfold gptimer_clksel_switch
  split
  · exact ⟨_, _, rfl, by norm_num, Or.inl rfl⟩
  · split
    · refine ⟨_, _, rfl, ?_, Or.inr (Or.inl rfl)⟩
      unfold u32; omega
    · split
      · refine ⟨_, _, rfl, ?_, Or.inr (Or.inr rfl)⟩
        unfold u32; omega
      · exfalso; omega

/-- Effect of `omap3_clk_gptimer_set_source` on a store, on its main path. -/
theorem gptimer_set_source_effect (K : ClkEnum) (clkdev : omap_clock_dev) (clksrc : Nat)
    (mem_res : Nat → Option Resource) (s : Bus) (d : struct_omap3_clk_details) (cm : Resource)
    (bit regoff : Nat)
    (hd : omap3_clk_details K clkdev.id = some d)
    (hcm : mem_res CM_INSTANCE_MEM_REGION = some cm)
    (hsw : gptimer_clksel_switch K clkdev.id = some (bit, regoff)) (hstore : s.isStore) :
    (omap3_clk_gptimer_set_source K clkdev clksrc mem_res s).1 = 0 ∧
    (omap3_clk_gptimer_set_source K clkdev clksrc mem_res s).2.isStore ∧
    (∀ r o, (omap3_clk_gptimer_set_source K clkdev clksrc mem_res s).2.cell r o =
      if r = cm ∧ o = regoff then
        u32 (if clksrc = K.SYSCLK_CLK then s.cell cm regoff ||| shl1 bit
          else s.cell cm regoff &&& not32 (shl1 bit))
      else s.cell r o) := by
  have A := rmw_store cm regoff
    (fun v => if clksrc = K.SYSCLK_CLK then v ||| shl1 bit else v &&& not32 (shl1 bit)) s hstore
  beta_reduce at A
  simp only [omap3_clk_gptimer_set_source, hd, hcm, hsw, true_and]
  exact ⟨bus_read_4_isStore _ _ _ A.1, fun r o => by rw [bus_read_4_cell, A.2.1]⟩

/-- The function `omap3_clk_gptimer_get_source_freq` on a store, on its main
path. -/
theorem gptimer_get_source_freq_store (K : ClkEnum) (clkdev : omap_clock_dev)
    (freq : Option Nat) (mem_res : Nat → Option Resource) (t : Bus)
    (d : struct_omap3_clk_details) (cm : Resource) (bit regoff : Nat)
    (hd : omap3_clk_details K clkdev.id = some d)
    (hcm : mem_res CM_INSTANCE_MEM_REGION = some cm)
    (hsw : gptimer_clksel_switch K clkdev.id = some (bit, regoff)) (ht : t.isStore) :
    omap3_clk_gptimer_get_source_freq K clkdev freq mem_res t =
      if t.cell cm regoff &&& shl1 bit ≠ 0 then
        match omap3_clk_get_sysclk_freq none (some 0) mem_res (bus_read_4 cm regoff t).2 with
        | Except.error e => Except.error e
        | Except.ok (_, src_freq, s2) =>
          Except.ok ((0 : Int), freq.map (fun _ => src_freq.getD 0), s2)
      else Except.ok ((0 : Int), freq.map (fun _ => FREQ_32KHZ), (bus_read_4 cm regoff t).2) := by
  simp only [omap3_clk_gptimer_get_source_freq, hd, hcm, hsw, bus_read_4_val_store _ _ _ ht]

/-- C6: for every timer clock GPTIMER1_CLK .. GPTIMER11_CLK (numbered in
sequence) and the bus behaving as a store, `omap3_clk_gptimer_set_source`
returns 0 whenever the CM resource is mapped, and after it has returned 0: if
the source set was SYSCLK_CLK and `omap3_clk_get_sysclk_freq` succeeds with
frequency `f`, then `omap3_clk_gptimer_get_source_freq` returns 0 and stores
`f`; if the source set was anything else it returns 0 and stores 32000. -/
theorem omap3_clk_gptimer_get_after_set (K : ClkEnum) (hK : K.timersInSequence)
    (clkdev : omap_clock_dev) (hid : clkdev.id ∈ K.gptimers)
    (mem_res : Nat → Option Resource) (s : Bus) (hstore : s.isStore) (clksrc old : Nat) :
    (∀ cm, mem_res CM_INSTANCE_MEM_REGION = some cm →
      (omap3_clk_gptimer_set_source K clkdev clksrc mem_res s).1 = 0) ∧
    ((omap3_clk_gptimer_set_source K clkdev clksrc mem_res s).1 = 0 →
      (clksrc = K.SYSCLK_CLK → ∀ f,
        observe (omap3_clk_get_sysclk_freq none (some 0) mem_res s) = Except.ok (0, some f) →
        observe (omap3_clk_gptimer_get_source_freq K clkdev (some old) mem_res
          (omap3_clk_gptimer_set_source K clkdev clksrc mem_res s).2) = Except.ok (0, some f)) ∧
      (clksrc ≠ K.SYSCLK_CLK →
        observe (omap3_clk_gptimer_get_source_freq K clkdev (some old) mem_res
          (omap3_clk_gptimer_set_source K clkdev clksrc mem_res s).2) =
            Except.ok (0, some 32000))) := by
  obtain ⟨d, hd⟩ := Option.isSome_iff_exists.mp (gptimer_details_isSome K hK clkdev.id hid)
  obtain ⟨bit, regoff, hsw, hbit, hreg⟩ := gptimer_switch_some K hK clkdev.id hid
  refine ⟨fun cm hcm =>
    (gptimer_set_source_effect K clkdev clksrc mem_res s d cm bit regoff hd hcm hsw hstore).1, ?_⟩
  intro hret0
  cases hcm : mem_res CM_INSTANCE_MEM_REGION with
  | none =>
    simp only [omap3_clk_gptimer_set_source, hd, hcm] at hret0
    exact absurd hret0 (by decide)
  | some cm =>
  obtain ⟨_, tstore, tcell⟩ :=
    gptimer_set_source_effect K clkdev clksrc mem_res s d cm bit regoff hd hcm hsw hstore
  refine ⟨?_, ?_⟩
  · intro hsrc f hobs
    rw [gptimer_get_source_freq_store K clkdev (some old) mem_res _ d cm bit regoff hd hcm hsw
      tstore]
    have hset : (omap3_clk_gptimer_set_source K clkdev clksrc mem_res s).2.cell cm regoff &&&
        shl1 bit ≠ 0 := by
      rw [tcell, if_pos ⟨rfl, rfl⟩, if_pos hsrc, or_bit_u32 s _ _ hbit, shl1_eq hbit, ne_eq,
        and_two_pow_eq_zero_iff, testBit_or_two_pow]
      simp
    rw [if_pos hset]
    cases hprm : mem_res PRM_INSTANCE_MEM_REGION with
    | none =>
      simp [omap3_clk_get_sysclk_freq, hprm, observe] at hobs
    | some prm =>
      have h1 : ¬ (prm = cm ∧ (0xD40 : Nat) = regoff) := by omega
      have h2 : ¬ (prm = cm ∧ (0x1270 : Nat) = regoff) := by omega
      have hstore1 := bus_read_4_isStore cm regoff _ tstore
      have hsame : observe (omap3_clk_get_sysclk_freq none (some 0) mem_res
          (bus_read_4 cm regoff
            (omap3_clk_gptimer_set_source K clkdev clksrc mem_res s).2).2) =
          Except.ok (0, some f) := by
        rw [← hobs, sysclk_observe none (some 0) mem_res prm s hprm,
          sysclk_observe none (some 0) mem_res prm _ hprm]
        simp only [peek_store _ hstore1, peek_store _ hstore, bus_read_4_cell, tcell,
          if_neg h1, if_neg h2]
      obtain ⟨t2, ht2⟩ := observe_ok hsame
      rw [ht2]
      rfl
  · intro hsrc
    rw [gptimer_get_source_freq_store K clkdev (some old) mem_res _ d cm bit regoff hd hcm hsw
      tstore]
    have hclr : ¬ ((omap3_clk_gptimer_set_source K clkdev clksrc mem_res s).2.cell cm regoff &&&
        shl1 bit ≠ 0) := by
      rw [tcell, if_pos ⟨rfl, rfl⟩, if_neg hsrc, and_not_bit_u32, not_not, shl1_eq hbit,
        and_two_pow_eq_zero_iff, ← shl1_eq hbit, testBit_and_not_bit (cell_lt _ _ _) hbit]
      simp
    rw [if_neg hclr]
    rfl

/-- Witness of C6: selecting SYS_CLK as the source of GPTIMER3 on a store whose
PRM registers describe a 13 MHz system clock. -/
theorem omap3_clk_gptimer_get_after_set_witness :
    observe (omap3_clk_gptimer_get_source_freq sampleEnum ⟨502⟩ (some 0) allMapped
        (omap3_clk_gptimer_set_source sampleEnum ⟨502⟩ 0 allMapped
          (clockBus 3 0x80 0 0)).2) = Except.ok (0, some 13000000) :=
  ((omap3_clk_gptimer_get_after_set sampleEnum (by decide) ⟨502⟩ (by decide) allMapped
    (clockBus 3 0x80 0 0) (fun _ _ => rfl) 0 0).2 rfl).1 rfl 13000000 rfl

/-! ## Claims about `omap3_intr.c` -/

theorem u32_u32_shl1_aux {b : Nat} (hb : b < 32) : u32 (shl1 b) = 2 ^ b := by
  rw [shl1_eq hb]; exact u32_of_lt (two_pow_lt_of_lt_32 hb)

theorem shiftRight_5 (nb : Nat) : nb >>> 5 = nb / 32 := by
  rw [Nat.shiftRight_eq_div_pow]

theorem and_1F (nb : Nat) : nb &&& 0x1F = nb % 32 := by
  have h := Nat.and_pow_two_sub_one_eq_mod nb 5
  norm_num at h
  exact h

theorem mask_write (nb : Nat) (h : nb < 96) :
    u32 (INTCPS_MIR_SET (nb >>> 5)) = 0x8C + 0x20 * (nb / 32) ∧
    u32 (INTCPS_MIR_CLEAR (nb >>> 5)) = 0x88 + 0x20 * (nb / 32) ∧
    u32 (shl1 (nb &&& 0x1F)) = 2 ^ (nb % 32) := by
  have hm : nb % 32 < 32 := Nat.mod_lt _ (by norm_num)
  rw [shiftRight_5, and_1F, u32_u32_shl1_aux hm]
  unfold INTCPS_MIR_SET INTCPS_MIR_CLEAR u32
  exact ⟨by omega, by omega, rfl⟩

theorem arm_mask_irq_trace (sc : omap3_softc) (nb : Nat) (h : nb < 96) (s : Bus) :
    (arm_mask_irq sc nb s).trace =
      s.trace ++ [BusOp.write sc.sc_intcps_ioh (0x8C + 0x20 * (nb / 32)) (2 ^ (nb % 32))] := by
  obtain ⟨h1, _, h3⟩ := mask_write nb h
  simp only [arm_mask_irq, bus_space_write_4, bus_write_4, h1, h3]

theorem arm_unmask_irq_trace (sc : omap3_softc) (nb : Nat) (h : nb < 96) (s : Bus) :
    (arm_unmask_irq sc nb s).trace =
      s.trace ++ [BusOp.write sc.sc_intcps_ioh (0x88 + 0x20 * (nb / 32)) (2 ^ (nb % 32))] := by
  obtain ⟨_, h2, h3⟩ := mask_write nb h
  simp only [arm_unmask_irq, bus_space_write_4, bus_write_4, h2, h3]

theorem irq_of_write {base a b : Nat}
    (h : (base + 0x20 * (a / 32), 2 ^ (a % 32)) = (base + 0x20 * (b / 32), 2 ^ (b % 32))) :
    a = b := by
  simp only [Prod.mk.injEq] at h
  have hm : a % 32 = b % 32 := Nat.pow_right_injective (le_refl 2) h.2
  omega

/-- C7: for every IRQ number `nb` in 0..95, `arm_mask_irq` makes exactly one
bus access, a write of `2 ^ (nb mod 32)` to INTCPS offset `0x8C + 0x20 * (nb div
32)`, and `arm_unmask_irq` exactly one write of the same value to offset `0x88
+ 0x20 * (nb div 32)`; the word written has exactly one bit set; and two IRQ
numbers in 0..95 for which the access made is the same are equal. -/
theorem arm_mask_unmask_irq_write (sc : omap3_softc) (nb : Nat) (h : nb < 96) (s : Bus) :
    (arm_mask_irq sc nb s).trace =
      s.trace ++ [BusOp.write sc.sc_intcps_ioh (0x8C + 0x20 * (nb / 32)) (2 ^ (nb % 32))] ∧
    (arm_unmask_irq sc nb s).trace =
      s.trace ++ [BusOp.write sc.sc_intcps_ioh (0x88 + 0x20 * (nb / 32)) (2 ^ (nb % 32))] ∧
    (∀ i, (2 ^ (nb % 32)).testBit i = true ↔ i = nb % 32) ∧
    (∀ nb2, nb2 < 96 → (arm_mask_irq sc nb2 s).trace = (arm_mask_irq sc nb s).trace →
      nb2 = nb) ∧
    (∀ nb2, nb2 < 96 → (arm_unmask_irq sc nb2 s).trace = (arm_unmask_irq sc nb s).trace →
      nb2 = nb) := by
  refine ⟨arm_mask_irq_trace sc nb h s, arm_unmask_irq_trace sc nb h s, ?_, ?_, ?_⟩
  · intro i
    rw [Nat.testBit_two_pow]
    simp only [decide_eq_true_eq]
    exact eq_comm
  · intro nb2 h2 heq
    rw [arm_mask_irq_trace sc nb h s, arm_mask_irq_trace sc nb2 h2 s] at heq
    have := List.append_cancel_left heq
    simp only [List.cons.injEq, BusOp.write.injEq, and_true, true_and] at this
    exact irq_of_write (Prod.ext this.1 this.2)
  · intro nb2 h2 heq
    rw [arm_unmask_irq_trace sc nb h s, arm_unmask_irq_trace sc nb2 h2 s] at heq
    have := List.append_cancel_left heq
    simp only [List.cons.injEq, BusOp.write.injEq, and_true, true_and] at this
    exact irq_of_write (Prod.ext this.1 this.2)

/-- Witness of C7: masking IRQ 37 writes bit 5 to MIR_SET1 (offset 0xAC). -/
theorem arm_mask_unmask_irq_write_witness :
    (arm_mask_irq sampleSoftc 37 zeroBus).trace = [BusOp.write 7 0xAC 32] :=
  (arm_mask_unmask_irq_write sampleSoftc 37 (by decide) zeroBus).1

theorem isr_clear_offset (last_irq : Int) (h0 : 0 ≤ last_irq) (h1 : last_irq ≤ 95) :
    toU32 (INTCPS_ISR_CLEAR (last_irq >>> (5 : Nat))) = 0x94 ∨
    toU32 (INTCPS_ISR_CLEAR (last_irq >>> (5 : Nat))) = 0xB4 ∨
    toU32 (INTCPS_ISR_CLEAR (last_irq >>> (5 : Nat))) = 0xD4 := by
  rw [Int.shiftRight_eq_div_pow]
  unfold toU32 INTCPS_ISR_CLEAR
  norm_num
  omega

/-- The value that `arm_get_next_irq` reads from INTCPS_SIR_IRQ is the one the
register presents on entry: the two clean-up writes go to other registers. -/
theorem next_irq_unfold (sc : omap3_softc) (last_irq : Int) (hlo : -1 ≤ last_irq)
    (hhi : last_irq ≤ 95) (s : Bus) :
    (arm_get_next_irq sc last_irq s).1 =
      if s.peek sc.sc_intcps_ioh 0x40 0 &&& 0xffffff80 = 0xffffff80 then -1
      else if s.peek sc.sc_intcps_ioh 0x40 0 &&& 0x7F ≠ toU32 last_irq then
        ((s.peek sc.sc_intcps_ioh 0x40 0 &&& 0x7F : Nat) : Int)
      else -1 := by
  have hread : ∀ t : Bus, t.peek sc.sc_intcps_ioh 0x40 0 = s.peek sc.sc_intcps_ioh 0x40 0 →
      (arm_get_next_irq sc last_irq s).1 =
        (if (bus_read_4 sc.sc_intcps_ioh 0x40 t).1 &&& 0xffffff80 = 0xffffff80 then (-1 : Int)
        else if (bus_read_4 sc.sc_intcps_ioh 0x40 t).1 &&& 0x7F ≠ toU32 last_irq then
          (((bus_read_4 sc.sc_intcps_ioh 0x40 t).1 &&& 0x7F : Nat) : Int)
        else -1) →
      (arm_get_next_irq sc last_irq s).1 =
        if s.peek sc.sc_intcps_ioh 0x40 0 &&& 0xffffff80 = 0xffffff80 then -1
        else if s.peek sc.sc_intcps_ioh 0x40 0 &&& 0x7F ≠ toU32 last_irq then
          ((s.peek sc.sc_intcps_ioh 0x40 0 &&& 0x7F : Nat) : Int)
        else -1 := by
    intro t ht h
    rw [h, bus_read_4_val, ht]
  by_cases hm : last_irq = -1
  · subst hm
    apply hread s rfl
    simp only [arm_get_next_irq, bus_space_read_4, INTCPS_SIR_IRQ, ne_eq, not_true_eq_false,
      if_false]
    split
    · rfl
    · split <;> rfl
  · have hoff := isr_clear_offset last_irq (by omega) hhi
    have hne1 : ¬ (sc.sc_intcps_ioh = sc.sc_intcps_ioh ∧
        (0x40 : Nat) = toU32 (INTCPS_ISR_CLEAR (last_irq >>> (5 : Nat)))) := by omega
    have hne2 : ¬ (sc.sc_intcps_ioh = sc.sc_intcps_ioh ∧ (0x40 : Nat) = INTCPS_CONTROL) := by
      unfold INTCPS_CONTROL; omega
    apply hread (bus_write_4 sc.sc_intcps_ioh INTCPS_CONTROL 1
      (bus_write_4 sc.sc_intcps_ioh (toU32 (INTCPS_ISR_CLEAR (last_irq >>> (5 : Nat))))
        (shl1 (toU32 last_irq &&& 0x1F)) s))
    · rw [bus_write_4_peek_other _ _ _ _ _ _ _ hne2, bus_write_4_peek_other _ _ _ _ _ _ _ hne1]
    · simp only [arm_get_next_irq, bus_space_read_4, bus_space_write_4, INTCPS_SIR_IRQ, ne_eq,
        hm, not_false_eq_true, if_true]
      split
      · rfl
      · split <;> rfl

/-- C8: for every `last_irq` in -1..95 and every value `v` read from
INTCPS_SIR_IRQ, `arm_get_next_irq` returns -1 if `(v & 0xffffff80) =
0xffffff80` or `(v & 0x7F) = last_irq`, and `v & 0x7F` otherwise; hence a
result other than -1 lies in 0..127 and differs from `last_irq`, and with
`last_irq = -1` every non-spurious `v` yields `v & 0x7F`. -/
theorem arm_get_next_irq_result (sc : omap3_softc) (last_irq : Int) (hlo : -1 ≤ last_irq)
    (hhi : last_irq ≤ 95) (s : Bus) :
    (arm_get_next_irq sc last_irq s).1 =
      (if s.peek sc.sc_intcps_ioh 0x40 0 &&& 0xffffff80 = 0xffffff80 ∨
          ((s.peek sc.sc_intcps_ioh 0x40 0 &&& 0x7F : Nat) : Int) = last_irq then -1
        else ((s.peek sc.sc_intcps_ioh 0x40 0 &&& 0x7F : Nat) : Int)) ∧
    ((arm_get_next_irq sc last_irq s).1 ≠ -1 →
      0 ≤ (arm_get_next_irq sc last_irq s).1 ∧ (arm_get_next_irq sc last_irq s).1 ≤ 127 ∧
      (arm_get_next_irq sc last_irq s).1 ≠ last_irq) ∧
    (last_irq = -1 → s.peek sc.sc_intcps_ioh 0x40 0 &&& 0xffffff80 ≠ 0xffffff80 →
      (arm_get_next_irq sc last_irq s).1 =
        ((s.peek sc.sc_intcps_ioh 0x40 0 &&& 0x7F : Nat) : Int)) := by
  have h7 : s.peek sc.sc_intcps_ioh 0x40 0 &&& 0x7F ≤ 0x7F := Nat.and_le_right
  have hcmp : s.peek sc.sc_intcps_ioh 0x40 0 &&& 0x7F ≠ toU32 last_irq ↔
      ¬ ((s.peek sc.sc_intcps_ioh 0x40 0 &&& 0x7F : Nat) : Int) = last_irq := by
    unfold toU32
    generalize s.peek sc.sc_intcps_ioh 0x40 0 &&& 0x7F = a at h7
    omega
  have key := next_irq_unfold sc last_irq hlo hhi s
  generalize (arm_get_next_irq sc last_irq s).1 = r at key
  generalize s.peek sc.sc_intcps_ioh 0x40 0 &&& 0x7F = a at h7 hcmp key
  generalize s.peek sc.sc_intcps_ioh 0x40 0 &&& 0xffffff80 = b at key
  subst key
  by_cases hb : b = 0xffffff80
  · simp [hb]
  · by_cases ha : (a : Int) = last_irq
    · have h2 : ¬ a ≠ toU32 last_irq := fun h => (hcmp.mp h) ha
      simp only [hb, h2, ha, if_false, if_true, or_true, false_or, ne_eq, not_true_eq_false,
        false_implies, true_and, not_false_eq_true, forall_true_left]
      omega
    · have h2 : a ≠ toU32 last_irq := hcmp.mpr ha
      simp only [hb, h2, ha, if_false, if_true, or_self, ne_eq, not_false_eq_true,
        forall_true_left, true_and, implies_true, and_true]
      omega

/-- Witness of C8: with no previous IRQ and SIR_IRQ reading 0, IRQ 0 is next. -/
theorem arm_get_next_irq_result_witness :
    (arm_get_next_irq sampleSoftc (-1) zeroBus).1 = 0 :=
  (arm_get_next_irq_result sampleSoftc (-1) (by decide) (by decide) zeroBus).2.2 rfl
    (by decide)

/-! ## Claims about `omap_sdram_size` -/

/-- The bits 17:8 of a register value, as a chunk count. -/
theorem chunks_le (m : Nat) : (m >>> 8) &&& 0x3FF ≤ 1023 := Nat.and_le_right

/-- C9: for all 32-bit values `m0`, `m1` found in SDRC_MCFG(0) and
SDRC_MCFG(1), `omap_sdram_size` returns exactly `(((m0 >> 8) & 0x3FF) + ((m1
>> 8) & 0x3FF)) * 2097152`: the 32-bit sum does not overflow, the result is a
multiple of 2 MiB, and it is the same for any other register contents with the
same bits 17:8. -/
theorem omap_sdram_size_exact (MCFG : Nat → Nat) (mem : Nat → Nat) :
    omap_sdram_size MCFG mem =
      (((u32 (mem (MCFG 0)) >>> 8) &&& 0x3FF) + ((u32 (mem (MCFG 1)) >>> 8) &&& 0x3FF))
        * 2097152 ∧
    (((u32 (mem (MCFG 0)) >>> 8) &&& 0x3FF) + ((u32 (mem (MCFG 1)) >>> 8) &&& 0x3FF))
        * 2097152 < 4294967296 ∧
    2097152 ∣ omap_sdram_size MCFG mem ∧
    (∀ mem2 : Nat → Nat,
      (u32 (mem2 (MCFG 0)) >>> 8) &&& 0x3FF = (u32 (mem (MCFG 0)) >>> 8) &&& 0x3FF →
      (u32 (mem2 (MCFG 1)) >>> 8) &&& 0x3FF = (u32 (mem (MCFG 1)) >>> 8) &&& 0x3FF →
      omap_sdram_size MCFG mem2 = omap_sdram_size MCFG mem) := by
  have key : ∀ m : Nat → Nat, omap_sdram_size MCFG m =
      (((u32 (m (MCFG 0)) >>> 8) &&& 0x3FF) + ((u32 (m (MCFG 1)) >>> 8) &&& 0x3FF))
        * 2097152 := by
    intro m
    have ha := chunks_le (u32 (m (MCFG 0)))
    have hb := chunks_le (u32 (m (MCFG 1)))
    simp only [omap_sdram_size]
    generalize (u32 (m (MCFG 0)) >>> 8) &&& 0x3FF = a at ha
    generalize (u32 (m (MCFG 1)) >>> 8) &&& 0x3FF = b at hb
    unfold u32
    omega
  have ha := chunks_le (u32 (mem (MCFG 0)))
  have hb := chunks_le (u32 (mem (MCFG 1)))
  refine ⟨key mem, by omega, ?_, ?_⟩
  · rw [key mem]; exact Dvd.intro_left _ rfl
  · intro mem2 h0 h1
    rw [key mem2, key mem, h0, h1]

/-- Witness of C9: one bank of 128 chunks gives 256 MiB. -/
theorem omap_sdram_size_exact_witness :
    omap_sdram_size sampleMcfg sampleMem = 268435456 :=
  (omap_sdram_size_exact sampleMcfg sampleMem).1.trans (by decide)

end Omap3

namespace llvm

/-! ## Claims about `ExpandRes_NormalLoad` -/

/-- C10: for every normal load `N` whose type expands into parts of a
byte-sized type `NVT` of `S = size(NVT)/8` bytes, `ExpandRes_NormalLoad`
succeeds and returns two loads of type `NVT`, one at `Ptr` and one at `Ptr +
S`, both on the original chain and with the original volatile / non-temporal /
invariant flags; on a little-endian target `Lo` is the load at `Ptr` and `Hi`
the load at `Ptr + S`, on a big-endian target `Lo` is the load at `Ptr + S` and
`Hi` the load at `Ptr`; and the old chain result `SDValue(N, 1)` is replaced by
a TokenFactor of the chain results of the two loads. -/
theorem ExpandRes_NormalLoad_halves (L : DAGTypeLegalizer) (N : LoadSDNode)
    (hN : ISD.isNormalLoad N = true)
    (hB : (L.TLI.getTypeToTransformTo N.valueType).isByteSized = true) :
    (L.ExpandRes_NormalLoad N).isSome = true ∧
    ∀ Lo Hi L2, L.ExpandRes_NormalLoad N = some (Lo, Hi, L2) →
      (L.TLI.isBigEndian = false →
        Lo.loadAccess = some (L.TLI.getTypeToTransformTo N.valueType, N.chain, N.basePtr,
          N.isVolatile, N.isNonTemporal, N.isInvariant) ∧
        Hi.loadAccess = some (L.TLI.getTypeToTransformTo N.valueType, N.chain,
          ptrPlus L.TLI N.basePtr ((L.TLI.getTypeToTransformTo N.valueType).getSizeInBits / 8),
          N.isVolatile, N.isNonTemporal, N.isInvariant) ∧
        L2.ReplacedValues = L.ReplacedValues ++
          [(N.result 1, SDValue.node ISD.TokenFactor EVT.Other [Lo.getValue 1, Hi.getValue 1])]) ∧
      (L.TLI.isBigEndian = true →
        Lo.loadAccess = some (L.TLI.getTypeToTransformTo N.valueType, N.chain,
          ptrPlus L.TLI N.basePtr ((L.TLI.getTypeToTransformTo N.valueType).getSizeInBits / 8),
          N.isVolatile, N.isNonTemporal, N.isInvariant) ∧
        Hi.loadAccess = some (L.TLI.getTypeToTransformTo N.valueType, N.chain, N.basePtr,
          N.isVolatile, N.isNonTemporal, N.isInvariant) ∧
        L2.ReplacedValues = L.ReplacedValues ++
          [(N.result 1, SDValue.node ISD.TokenFactor EVT.Other [Hi.getValue 1, Lo.getValue 1])]) ∧
      Lo.getValue 0 = Lo ∧ Hi.getValue 0 = Hi ∧ Lo ≠ Hi ∧ L2.TLI = L.TLI := by
  have hne : N.basePtr ≠ ptrPlus L.TLI N.basePtr
      ((L.TLI.getTypeToTransformTo N.valueType).getSizeInBits / 8) := by
    intro h
    have := congrArg sizeOf h
    simp [ptrPlus] at this
    omega
  constructor
  · simp only [DAGTypeLegalizer.ExpandRes_NormalLoad, hN, hB, not_true_eq_false, if_false,
      Option.isSome_some]
  · intro Lo Hi L2 h
    simp only [DAGTypeLegalizer.ExpandRes_NormalLoad, hN, hB, not_true_eq_false, if_false,
      Option.some.injEq, Prod.mk.injEq] at h
    obtain ⟨hLo, hHi, hL2⟩ := h
    cases hbe : L.TLI.isBigEndian
    · simp only [hbe, Bool.false_eq_true, if_false] at hLo hHi
      subst hLo hHi hL2
      refine ⟨fun _ => ⟨rfl, rfl, rfl⟩, fun h => absurd h (by decide), rfl, rfl, ?_, rfl⟩
      intro h
      simp only [SDValue.load.injEq] at h
      exact hne h.2.2.1
    · simp only [hbe, if_true] at hLo hHi
      subst hLo hHi hL2
      refine ⟨fun h => absurd h (by decide), fun _ => ⟨rfl, rfl, rfl⟩, rfl, rfl, ?_, rfl⟩
      intro h
      simp only [SDValue.load.injEq] at h
      exact hne h.2.2.1.symm

/-- Witness of C10: the `i64` load of the sample target on a little-endian
machine expands into `sampleLo` (at the original address) and `sampleHi` (four
bytes further). -/
theorem ExpandRes_NormalLoad_halves_witness :
    sampleLo.loadAccess = some (EVT.scalar 32, SDValue.value 1 0 EVT.Other,
        SDValue.value 2 0 (EVT.scalar 32), false, false, false) ∧
    sampleHi.loadAccess = some (EVT.scalar 32, SDValue.value 1 0 EVT.Other,
        ptrPlus (sampleTLI false) (SDValue.value 2 0 (EVT.scalar 32)) 4, false, false, false) :=
  ⟨(((ExpandRes_NormalLoad_halves (sampleLegalizer false) sampleLoad (by decide)
      (by decide)).2 sampleLo sampleHi _ rfl).1 rfl).1,
   (((ExpandRes_NormalLoad_halves (sampleLegalizer false) sampleLoad (by decide)
      (by decide)).2 sampleLo sampleHi _ rfl).1 rfl).2.1⟩

/-! ## Claims about `ExpandOp_NormalStore` -/

theorem evalInt_ptrPlus (env : SDValue → Nat) (vt pt : EVT) (Ptr : SDValue) (S : Nat) :
    evalInt env (SDValue.node ISD.ADD vt [Ptr, SDValue.constant S pt]) = evalInt env Ptr + S := by
  simp [evalInt]

/-- The two writes of the expanded store, read back at the two addresses, in
either order of application. -/
theorem applyWrites_pair (a S : Nat) (hS : 0 < S) (p q : SDValue) (inOrder : Bool) (m : Mem) :
    applyWrites (if inOrder then [(a, p), (a + S, q)] else [(a, p), (a + S, q)].reverse) m a
      = some p ∧
    applyWrites (if inOrder then [(a, p), (a + S, q)] else [(a, p), (a + S, q)].reverse) m (a + S)
      = some q := by
  have h1 : a ≠ a + S := by omega
  have h2 : a + S ≠ a := by omega
  cases inOrder <;> simp [applyWrites, Mem.write, h1, h2]

theorem getValueType_node (opc : ISD) (vt : EVT) (ops : List SDValue) :
    (SDValue.node opc vt ops).getValueType = vt := rfl

/-- The token that `ExpandOp_NormalStore` returns on its main path. -/
theorem ExpandOp_NormalStore_eq (L : DAGTypeLegalizer) (X : ExpandedOps) (St : StoreSDNode)
    (hN : ISD.isNormalStore St = true)
    (hB : (L.TLI.getTypeToTransformTo St.value.getValueType).isByteSized = true)
    (hP : X.isTypeLegal St.basePtr.getValueType = true) :
    L.ExpandOp_NormalStore X St 1 =
      some (SDValue.node ISD.TokenFactor EVT.Other
        [SDValue.store St.chain
            (if L.TLI.isBigEndian then (X.GetExpandedOp St.value).2
              else (X.GetExpandedOp St.value).1)
            St.basePtr St.pointerInfo St.isVolatile St.isNonTemporal St.alignment,
         SDValue.store St.chain
            (if L.TLI.isBigEndian then (X.GetExpandedOp St.value).1
              else (X.GetExpandedOp St.value).2)
            (ptrPlus L.TLI St.basePtr
              ((L.TLI.getTypeToTransformTo St.value.getValueType).getSizeInBits / 8))
            (MachinePointerInfo.getWithOffset St.pointerInfo
              ((L.TLI.getTypeToTransformTo St.value.getValueType).getSizeInBits / 8))
            St.isVolatile St.isNonTemporal
            (L.MinAlign St.alignment
              ((L.TLI.getTypeToTransformTo St.value.getValueType).getSizeInBits / 8))]) := by
  simp only [DAGTypeLegalizer.ExpandOp_NormalStore, getValueType_node, hN, hB, hP,
    not_true_eq_false, if_false, ptrPlus, DAGTypeLegalizer.getIntPtrConstant]
  cases L.TLI.isBigEndian <;> rfl

/-- The pair that `ExpandRes_NormalLoad` returns on its main path. -/
theorem ExpandRes_NormalLoad_eq (L : DAGTypeLegalizer) (N : LoadSDNode)
    (hN : ISD.isNormalLoad N = true)
    (hB : (L.TLI.getTypeToTransformTo N.valueType).isByteSized = true) :
    ∃ L2, L.ExpandRes_NormalLoad N =
      some (
        (if L.TLI.isBigEndian then
          SDValue.load (L.TLI.getTypeToTransformTo N.valueType) N.chain
            (ptrPlus L.TLI N.basePtr ((L.TLI.getTypeToTransformTo N.valueType).getSizeInBits / 8))
            (MachinePointerInfo.getWithOffset N.pointerInfo
              ((L.TLI.getTypeToTransformTo N.valueType).getSizeInBits / 8))
            N.isVolatile N.isNonTemporal N.isInvariant
            (L.MinAlign N.alignment
              ((L.TLI.getTypeToTransformTo N.valueType).getSizeInBits / 8)) 0
        else
          SDValue.load (L.TLI.getTypeToTransformTo N.valueType) N.chain N.basePtr N.pointerInfo
            N.isVolatile N.isNonTemporal N.isInvariant N.alignment 0),
        (if L.TLI.isBigEndian then
          SDValue.load (L.TLI.getTypeToTransformTo N.valueType) N.chain N.basePtr N.pointerInfo
            N.isVolatile N.isNonTemporal N.isInvariant N.alignment 0
        else
          SDValue.load (L.TLI.getTypeToTransformTo N.valueType) N.chain
            (ptrPlus L.TLI N.basePtr ((L.TLI.getTypeToTransformTo N.valueType).getSizeInBits / 8))
            (MachinePointerInfo.getWithOffset N.pointerInfo
              ((L.TLI.getTypeToTransformTo N.valueType).getSizeInBits / 8))
            N.isVolatile N.isNonTemporal N.isInvariant
            (L.MinAlign N.alignment
              ((L.TLI.getTypeToTransformTo N.valueType).getSizeInBits / 8)) 0),
        L2) := by
  simp only [DAGTypeLegalizer.ExpandRes_NormalLoad, hN, hB, not_true_eq_false, if_false, ptrPlus,
    DAGTypeLegalizer.getIntPtrConstant]
  cases L.TLI.isBigEndian <;> exact ⟨_, rfl⟩

/-- C11: for both endiannesses and every expanded value `(Lo, Hi) =
GetExpandedOp(value)` with parts of `S >= 1` bytes, the token that
`ExpandOp_NormalStore` returns writes `Lo` at `Ptr` and `Hi` at `Ptr + S` on a
little-endian target, and `Hi` at `Ptr` and `Lo` at `Ptr + S` on a big-endian
target; and a normal load of the same type from the same address, chained to
that token, is expanded by `ExpandRes_NormalLoad` into two loads that read back
exactly `Lo` and `Hi` from the memory, in whichever order the two writes are
applied. -/
theorem ExpandOp_NormalStore_load_agree (L : DAGTypeLegalizer) (X : ExpandedOps)
    (St : StoreSDNode) (env : SDValue → Nat)
    (hN : ISD.isNormalStore St = true)
    (hB : (L.TLI.getTypeToTransformTo St.value.getValueType).isByteSized = true)
    (hS : 0 < (L.TLI.getTypeToTransformTo St.value.getValueType).getSizeInBits / 8)
    (hP : X.isTypeLegal St.basePtr.getValueType = true) :
    (L.ExpandOp_NormalStore X St 1).isSome = true ∧
    ∀ tok, L.ExpandOp_NormalStore X St 1 = some tok →
      (L.TLI.isBigEndian = false →
        storeWrites env tok = some
          [(evalInt env St.basePtr, (X.GetExpandedOp St.value).1),
           (evalInt env St.basePtr +
              (L.TLI.getTypeToTransformTo St.value.getValueType).getSizeInBits / 8,
            (X.GetExpandedOp St.value).2)]) ∧
      (L.TLI.isBigEndian = true →
        storeWrites env tok = some
          [(evalInt env St.basePtr, (X.GetExpandedOp St.value).2),
           (evalInt env St.basePtr +
              (L.TLI.getTypeToTransformTo St.value.getValueType).getSizeInBits / 8,
            (X.GetExpandedOp St.value).1)]) ∧
      ∀ LD : LoadSDNode, ISD.isNormalLoad LD = true →
        LD.valueType = St.value.getValueType → LD.basePtr = St.basePtr → LD.chain = tok →
        (L.ExpandRes_NormalLoad LD).isSome = true ∧
        ∀ Lo Hi L2, L.ExpandRes_NormalLoad LD = some (Lo, Hi, L2) →
          ∀ (inOrder : Bool) (m : Mem),
            loadValue env inOrder m Lo = some (X.GetExpandedOp St.value).1 ∧
            loadValue env inOrder m Hi = some (X.GetExpandedOp St.value).2 := by
  have hst := ExpandOp_NormalStore_eq L X St hN hB hP
  refine ⟨by rw [hst]; rfl, ?_⟩
  intro tok htok
  rw [hst] at htok
  simp only [Option.some.injEq] at htok
  subst htok
  have hw : ∀ p q : SDValue, storeWrites env
      (SDValue.node ISD.TokenFactor EVT.Other
        [SDValue.store St.chain p St.basePtr St.pointerInfo St.isVolatile St.isNonTemporal
            St.alignment,
         SDValue.store St.chain q
            (ptrPlus L.TLI St.basePtr
              ((L.TLI.getTypeToTransformTo St.value.getValueType).getSizeInBits / 8))
            (MachinePointerInfo.getWithOffset St.pointerInfo
              ((L.TLI.getTypeToTransformTo St.value.getValueType).getSizeInBits / 8))
            St.isVolatile St.isNonTemporal
            (L.MinAlign St.alignment
              ((L.TLI.getTypeToTransformTo St.value.getValueType).getSizeInBits / 8))]) =
      some [(evalInt env St.basePtr, p),
            (evalInt env St.basePtr +
              (L.TLI.getTypeToTransformTo St.value.getValueType).getSizeInBits / 8, q)] := by
    intro p q
    simp only [storeWrites, storeWriteList, storeWrite, ptrPlus, evalInt_ptrPlus]
  refine ⟨?_, ?_, ?_⟩
  · intro hbe
    simp only [hbe, Bool.false_eq_true, if_false]
    exact hw _ _
  · intro hbe
    simp only [hbe, if_true]
    exact hw _ _
  · intro LD hLD hvt hptr hchain
    have hB2 : (L.TLI.getTypeToTransformTo LD.valueType).isByteSized = true := by rw [hvt]; exact hB
    obtain ⟨L2, hld⟩ := ExpandRes_NormalLoad_eq L LD hLD hB2
    refine ⟨by rw [hld]; rfl, ?_⟩
    intro Lo Hi L3 h inOrder m
    rw [hld] at h
    simp only [Option.some.injEq, Prod.mk.injEq] at h
    obtain ⟨hLo, hHi, _⟩ := h
    subst hLo hHi
    rw [hvt, hptr, hchain]
    cases hbe : L.TLI.isBigEndian
    · simp only [Bool.false_eq_true, if_false, loadValue, hw, ptrPlus, evalInt_ptrPlus]
      exact applyWrites_pair _ _ hS _ _ inOrder m
    · simp only [if_true, loadValue, hw, ptrPlus, evalInt_ptrPlus]
      exact (applyWrites_pair _ _ hS _ _ inOrder m).symm

/-- Witness of C11: the sample `i64` store on a little-endian target writes
`partLo 3` at address 1000 and `partHi 3` at address 1004, and the expanded
reload reads both parts back. -/
theorem ExpandOp_NormalStore_load_agree_witness :
    storeWrites sampleEnv sampleStoreToken = some [(1000, partLo 3), (1004, partHi 3)] ∧
    loadValue sampleEnv true emptyMem sampleReloadLo = some (partLo 3) ∧
    loadValue sampleEnv true emptyMem sampleReloadHi = some (partHi 3) :=
  ⟨((ExpandOp_NormalStore_load_agree (sampleLegalizer false) sampleExpanded sampleStore sampleEnv
      (by decide) (by decide) (by decide) rfl).2 sampleStoreToken rfl).1 rfl,
   ((((ExpandOp_NormalStore_load_agree (sampleLegalizer false) sampleExpanded sampleStore sampleEnv
      (by decide) (by decide) (by decide) rfl).2 sampleStoreToken rfl).2.2
        sampleReload rfl rfl rfl rfl).2 sampleReloadLo sampleReloadHi _ rfl true emptyMem)⟩

/-! ## Claims about `ExpandOp_BUILD_VECTOR` and `ExpandRes_EXTRACT_VECTOR_ELT` -/

theorem spec_expandedElts_length (be : Bool) (X : ExpandedOps) (ops : List SDValue) :
    (spec_expandedElts be X ops).length = 2 * ops.length := by
  induction ops with
  | nil => rfl
  | cons op rest ih => simp only [spec_expandedElts, List.length_cons, ih]; omega

theorem spec_expandedElts_get (be : Bool) (X : ExpandedOps) (ops : List SDValue) (i : Nat)
    (op : SDValue) (h : ops[i]? = some op) :
    (spec_expandedElts be X ops)[2 * i]? =
        some (if be then (X.GetExpandedOp op).2 else (X.GetExpandedOp op).1) ∧
    (spec_expandedElts be X ops)[2 * i + 1]? =
        some (if be then (X.GetExpandedOp op).1 else (X.GetExpandedOp op).2) := by
  induction ops generalizing i with
  | nil => simp at h
  | cons x rest ih =>
    cases i with
    | zero =>
      simp only [List.getElem?_cons_zero, Option.some.injEq] at h
      subst h
      constructor <;> simp [spec_expandedElts]
    | succ j =>
      simp only [List.getElem?_cons_succ] at h
      have hj := ih j h
      have e1 : 2 * (j + 1) = (2 * j + 1) + 1 := by omega
      have e2 : 2 * (j + 1) + 1 = (2 * j + 1 + 1) + 1 := by omega
      rw [e2, e1]
      simp only [spec_expandedElts, List.getElem?_cons_succ]
      exact hj

/-- The loop pushes the halves of the next `k` operands. -/
theorem BUILD_VECTOR_loop_eq (L : DAGTypeLegalizer) (X : ExpandedOps) (N : SDNode) (k : Nat) :
    ∀ (i : Nat) (acc : List SDValue), i + k ≤ N.operands.length →
      L.ExpandOp_BUILD_VECTOR_loop X N k i acc =
        some (acc ++ spec_expandedElts L.TLI.isBigEndian X ((N.operands.drop i).take k)) := by
  induction k with
  | zero => intro i acc _; simp [DAGTypeLegalizer.ExpandOp_BUILD_VECTOR_loop, spec_expandedElts]
  | succ k ih =>
    intro i acc h
    have hi : i < N.operands.length := by omega
    have hop : N.getOperand i = some N.operands[i] := by
      unfold SDNode.getOperand; exact List.getElem?_eq_getElem hi
    simp only [DAGTypeLegalizer.ExpandOp_BUILD_VECTOR_loop, hop]
    rw [ih (i + 1) _ (by omega), List.drop_eq_getElem_cons hi, List.take_succ_cons]
    simp only [spec_expandedElts, List.append_assoc, List.cons_append, List.nil_append]
    cases L.TLI.isBigEndian <;> rfl

/-- The node that `ExpandOp_BUILD_VECTOR` returns for a well-formed
`BUILD_VECTOR` of `n >= 1` operands. -/
theorem ExpandOp_BUILD_VECTOR_eq (L : DAGTypeLegalizer) (X : ExpandedOps) (N : SDNode)
    (b n : Nat) (hn : 1 ≤ n) (hvt : N.valueType = EVT.vector b n)
    (hlen : N.operands.length = n)
    (hop0 : ∀ op, N.getOperand 0 = some op → op.getValueType = EVT.scalar b) :
    L.ExpandOp_BUILD_VECTOR X N =
      some (SDValue.node ISD.BITCAST (EVT.vector b n)
        [SDValue.node ISD.BUILD_VECTOR
          (EVT.getVectorVT (L.TLI.getTypeToTransformTo (EVT.scalar b)) (2 * n))
          (spec_expandedElts L.TLI.isBigEndian X N.operands)]) := by
  have h0 : 0 < N.operands.length := by omega
  have hget : N.getOperand 0 = some N.operands[0] := by
    unfold SDNode.getOperand; exact List.getElem?_eq_getElem h0
  have hty := hop0 _ hget
  have hloop := BUILD_VECTOR_loop_eq L X N n 0 [] (by omega)
  rw [List.drop_zero, List.take_of_length_le (by omega), List.nil_append] at hloop
  simp only [DAGTypeLegalizer.ExpandOp_BUILD_VECTOR, hget, hty, hvt, EVT.getVectorNumElements,
    EVT.getVectorElementType, not_true_eq_false, if_false, hloop, spec_expandedElts_length, hlen]

theorem evalInt_zext (env : SDValue → Nat) (vt : EVT) (a : SDValue) :
    evalInt env (SDValue.node ISD.ZERO_EXTEND vt [a]) = evalInt env a := by
  simp [evalInt]

theorem evalInt_add (env : SDValue → Nat) (vt : EVT) (a c : SDValue) :
    evalInt env (SDValue.node ISD.ADD vt [a, c]) = evalInt env a + evalInt env c := by
  simp [evalInt]

theorem evalInt_const (env : SDValue → Nat) (vt : EVT) (v : Nat) :
    evalInt env (SDValue.constant v vt) = v := by
  simp [evalInt]

/-- C12: for every `n >= 1`, every `BUILD_VECTOR` node of `n` operands whose
expanded halves are `(Lo_i, Hi_i) = GetExpandedOp(operand i)`, and both
endiannesses, `ExpandOp_BUILD_VECTOR` builds (under a bitcast to the old vector
type) a vector of exactly `2n` elements of the expanded type with the halves of
operand `i` at positions `2i` and `2i+1`, `Lo` first on a little-endian target
and `Hi` first on a big-endian one; and `ExpandRes_EXTRACT_VECTOR_ELT` applied
to that vector with an index of value `i < n` returns two nodes that read
positions `2i` and `2i+1` and evaluate to exactly `Lo_i` and `Hi_i`. -/
theorem ExpandRes_EXTRACT_VECTOR_ELT_inverts_BUILD_VECTOR (L : DAGTypeLegalizer)
    (X : ExpandedOps) (N : SDNode) (env : SDValue → Nat) (b n : Nat) (hn : 1 ≤ n)
    (hvt : N.valueType = EVT.vector b n) (hlen : N.operands.length = n)
    (hop0 : ∀ op, N.getOperand 0 = some op → op.getValueType = EVT.scalar b) :
    (L.ExpandOp_BUILD_VECTOR X N).isSome = true ∧
    ∀ V, L.ExpandOp_BUILD_VECTOR X N = some V →
      (∃ elts, V = SDValue.node ISD.BITCAST (EVT.vector b n)
          [SDValue.node ISD.BUILD_VECTOR
            (EVT.getVectorVT (L.TLI.getTypeToTransformTo (EVT.scalar b)) (2 * n)) elts] ∧
        elts.length = 2 * n ∧
        ∀ i op, N.operands[i]? = some op →
          (L.TLI.isBigEndian = false →
            elts[2 * i]? = some (X.GetExpandedOp op).1 ∧
            elts[2 * i + 1]? = some (X.GetExpandedOp op).2) ∧
          (L.TLI.isBigEndian = true →
            elts[2 * i]? = some (X.GetExpandedOp op).2 ∧
            elts[2 * i + 1]? = some (X.GetExpandedOp op).1)) ∧
      ∀ (E : SDNode) (Idx : SDValue) (i : Nat) (op : SDValue),
        E.operands = [V, Idx] → E.valueType = EVT.scalar b → evalInt env Idx = i →
        N.operands[i]? = some op →
        (L.ExpandRes_EXTRACT_VECTOR_ELT E).isSome = true ∧
        ∀ Lo Hi, L.ExpandRes_EXTRACT_VECTOR_ELT E = some (Lo, Hi) →
          extractValue env Lo = some (X.GetExpandedOp op).1 ∧
          extractValue env Hi = some (X.GetExpandedOp op).2 := by
  have hbv := ExpandOp_BUILD_VECTOR_eq L X N b n hn hvt hlen hop0
  refine ⟨by rw [hbv]; rfl, ?_⟩
  intro V hV
  rw [hbv] at hV
  simp only [Option.some.injEq] at hV
  subst hV
  refine ⟨⟨_, rfl, by rw [spec_expandedElts_length, hlen], ?_⟩, ?_⟩
  · intro i op hop
    obtain ⟨g1, g2⟩ := spec_expandedElts_get L.TLI.isBigEndian X N.operands i op hop
    constructor
    · intro hbe
      rw [hbe] at g1 g2 ⊢
      exact ⟨g1, g2⟩
    · intro hbe
      rw [hbe] at g1 g2 ⊢
      exact ⟨g1, g2⟩
  · intro E Idx i op hops hEvt hidx hop
    obtain ⟨g1, g2⟩ := spec_expandedElts_get L.TLI.isBigEndian X N.operands i op hop
    have hi2 : evalInt env Idx + evalInt env Idx = 2 * i := by omega
    have e0 : E.getOperand 0 = some (SDValue.node ISD.BITCAST (EVT.vector b n)
        [SDValue.node ISD.BUILD_VECTOR
          (EVT.getVectorVT (L.TLI.getTypeToTransformTo (EVT.scalar b)) (2 * n))
          (spec_expandedElts L.TLI.isBigEndian X N.operands)]) := by
      unfold SDNode.getOperand; rw [hops]; rfl
    have e1 : E.getOperand 1 = some Idx := by
      unfold SDNode.getOperand; rw [hops]; rfl
    constructor
    · simp only [DAGTypeLegalizer.ExpandRes_EXTRACT_VECTOR_ELT, e0, e1, Option.isSome_some]
    · intro Lo Hi h
      simp only [DAGTypeLegalizer.ExpandRes_EXTRACT_VECTOR_ELT, e0, e1, hEvt, getValueType_node,
        EVT.getVectorNumElements, Option.some.injEq] at h
      have hidx' : ∀ vt, evalInt env
          (if Idx.getValueType.bitsLT L.TLI.getPointerTy = true then
            SDValue.node ISD.ZERO_EXTEND vt [Idx] else Idx) = evalInt env Idx := by
        intro vt
        split
        · exact evalInt_zext env vt Idx
        · rfl
      cases hbe : L.TLI.isBigEndian
      · rw [hbe] at h g1 g2
        simp only [Bool.false_eq_true, if_false, Prod.mk.injEq] at h g1 g2
        obtain ⟨hLo, hHi⟩ := h
        subst hLo hHi
        simp only [extractValue, vectorElts, if_true, evalInt_add, evalInt_const, hidx', hi2]
        exact ⟨g1, g2⟩
      · rw [hbe] at h g1 g2
        simp only [if_true, Prod.mk.injEq] at h g1 g2
        obtain ⟨hLo, hHi⟩ := h
        subst hLo hHi
        simp only [extractValue, vectorElts, if_true, evalInt_add, evalInt_const, hidx', hi2]
        exact ⟨g2, g1⟩

/-- Witness of C12: on a little-endian target the `<2 x i64>` sample vector
becomes `sampleVec`, and extracting element 1 from it gives back the two halves
of operand 1. -/
theorem ExpandRes_EXTRACT_VECTOR_ELT_inverts_BUILD_VECTOR_witness :
    extractValue sampleEnv sampleExtLo = some (partLo 6) ∧
    extractValue sampleEnv sampleExtHi = some (partHi 6) :=
  (((ExpandRes_EXTRACT_VECTOR_ELT_inverts_BUILD_VECTOR (sampleLegalizer false) sampleExpanded
      sampleBuildVector sampleEnv 64 2 (by decide) rfl rfl
      (fun op h => by
        simp only [SDNode.getOperand, sampleBuildVector, List.getElem?_cons_zero,
          Option.some.injEq] at h
        subst h; rfl)).2 sampleVec rfl).2
    sampleExtract (SDValue.constant 1 (EVT.scalar 32)) 1 (sampleOp 6) rfl rfl rfl rfl).2
    sampleExtLo sampleExtHi rfl

end llvm
